import Mathlib

/-!
Verification of the matching / progress core of the Spotify→YouTube playlist
converter.  The TypeScript sources are shallowly embedded: JavaScript strings
become `List Char`, numbers that carry fractional confidence values become
`Rat`, integer scores become `Int`, and the stateful batch scripts become
explicit state-passing functions.  External network calls (YouTube search,
playlist-item insertion) are modelled as oracles passed in as arguments.
-/

/-- JavaScript strings are embedded as lists of characters. -/
abbrev Str := List Char

/-- Turn a Lean string literal into the embedded string type. -/
def str (s : String) : Str := s.toList

/-- JS `s.toLowerCase()`. -/
def jsToLower (s : Str) : Str := s.map Char.toLower

/-- `strStartsWith s pat` holds when `pat` is a prefix of `s`. -/
def strStartsWith : Str → Str → Bool
  | _, [] => true
  | [], _ :: _ => false
  | a :: as, b :: bs => a = b && strStartsWith as bs

/-- JS `haystack.includes(needle)`: substring (infix) test.  As in JS,
an empty needle is contained in every string. -/
def jsIncludes (hay needle : Str) : Bool :=
  if strStartsWith hay needle then true
  else
    match hay with
    | [] => false
    | _ :: t => jsIncludes t needle

/-- JS `s.split(c)` for a one-character separator: splits at every
occurrence, keeping empty pieces, and yields `[""]` on the empty string. -/
def jsSplitChar (c : Char) : Str → List Str
  | [] => [[]]
  | x :: xs =>
    match jsSplitChar c xs with
    | [] => if x = c then [[], []] else [[x]]
    | r :: rs => if x = c then [] :: r :: rs else (x :: r) :: rs

/-- JS `s.trim()`, left half: drop leading whitespace. -/
def trimLeft (s : Str) : Str := s.dropWhile Char.isWhitespace

/-- JS `s.trim()`: drop leading and trailing whitespace. -/
def jsTrim (s : Str) : Str := ((trimLeft s).reverse.dropWhile Char.isWhitespace).reverse

/-! ### Data model (src/src/types/index.ts) -/

/-- `SpotifyArtist` from src/src/types/index.ts. -/
structure SpotifyArtist where
  id : Str
  name : Str
  spotify_url : Str
deriving DecidableEq

/-- `SpotifyTrack` from src/src/types/index.ts. -/
structure SpotifyTrack where
  id : Str
  name : Str
  artists : List SpotifyArtist
  duration_ms : Nat
  spotify_url : Str
deriving DecidableEq

/-- `YouTubeVideo` from src/src/types/index.ts (the fields the core reads:
`id.videoId`, `snippet.title`, `snippet.channelTitle`, `snippet.publishedAt`). -/
structure YouTubeVideo where
  videoId : Str
  title : Str
  channelTitle : Str
  publishedAt : Str
deriving DecidableEq

/-- JS `track.artists[0]?.name || ''`: first artist name, or empty. -/
def primaryArtistName (t : SpotifyTrack) : Str :=
  match t.artists with
  | [] => []
  | a :: _ => a.name

/-! ### cleanTrackName (src/src/services/youtubeService.ts 127-142)

Each JS `String.replace(regex, '')` pass with a `g` flag is embedded as a
left-to-right scan: at each position the matcher either reports the length
of the (leftmost, greedy) regex match starting there, which is then dropped,
or the scan advances one character. -/

/-- Length of the leading whitespace run (`\s*`). -/
def wsLen (s : Str) : Nat := (s.takeWhile Char.isWhitespace).length

/-- Case-insensitive prefix test; the pattern is given in lower case. -/
def ciStartsWith (s pat : Str) : Bool := strStartsWith (jsToLower s) pat

/-- Alternatives of `(?:feat\.?|featuring|ft\.?)` in the backtracking order
the JS regex engine tries them. -/
def featKeywords : List Str :=
  [str "feat.", str "feat", str "featuring", str "ft.", str "ft"]

/-- After a matched keyword of length `kwLen`, match `\s+[^)]*\)?`. -/
def featAfterKw (s : Str) (kwLen : Nat) : Option Nat :=
  let rest := s.drop kwLen
  let w := wsLen rest
  if w = 0 then none
  else
    let rest2 := rest.drop w
    let body := (rest2.takeWhile (fun c => c != ')')).length
    let paren := if (rest2.drop body).head? = some ')' then 1 else 0
    some (kwLen + w + body + paren)

/-- Match `(?:feat\.?|featuring|ft\.?)\s+[^)]*\)?` at the start of `s`. -/
def featTail (s : Str) : Option Nat :=
  (featKeywords.filterMap (fun kw =>
    if ciStartsWith s kw then featAfterKw s kw.length else none)).head?

/-- Match `\s*\(?(?:feat\.?|featuring|ft\.?)\s+[^)]*\)?` (case-insensitive)
at the start of `s`; returns the length of the match. -/
def featMatcher (s : Str) : Option Nat :=
  let n0 := wsLen s
  match s.drop n0 with
  | '(' :: rest => (featTail rest).map (fun n => n0 + 1 + n)
  | other => (featTail other).map (fun n => n0 + n)

/-- First alternative (in regex order) matching case-insensitively at the
start of `s`, with its length. -/
def altAt (alts : List Str) (s : Str) : Option Nat :=
  (alts.filterMap (fun a =>
    if ciStartsWith s a then some a.length else none)).head?

/-- Match `.*(?:alt₁|…)\s*` at the start of `r`: the greedy `.*` backtracks,
so the regex engine settles on the largest offset `k` (with no newline
before it) at which some alternative matches. -/
def dashAltSuffix (alts : List Str) (r : Str) : Option Nat :=
  let ks := (List.range (r.length + 1)).filterMap (fun k =>
    if (r.take k).all (fun c => c != '\n') then
      match altAt alts (r.drop k) with
      | some len => some (k, len)
      | none => none
    else none)
  match ks.getLast? with
  | some (k, len) => some (k + len + wsLen (r.drop (k + len)))
  | none => none

/-- Match `\s*[-–]\s*.*(?:alt₁|…)\s*` at the start of `s`. -/
def dashMatcher (alts : List Str) (s : Str) : Option Nat :=
  let n0 := wsLen s
  match s.drop n0 with
  | c :: rest =>
    if c = '-' || c = '–' then
      let n2 := wsLen rest
      (dashAltSuffix alts (rest.drop n2)).map (fun n => n0 + 1 + n2 + n)
    else none
  | [] => none

/-- Alternatives of the remix pass: `(?:remix|mix|version|edit)`. -/
def mixAlts : List Str := [str "remix", str "mix", str "version", str "edit"]

/-- Alternatives of the remaster pass: `(?:remaster|remastered)`. -/
def remasterAlts : List Str := [str "remaster", str "remastered"]

/-- Match `\s*\(?\d{4}\)?` at the start of `s`. -/
def yearMatcher (s : Str) : Option Nat :=
  let n0 := wsLen s
  let s1 := s.drop n0
  let p1 := if s1.head? = some '(' then 1 else 0
  let s2 := s1.drop p1
  if (s2.take 4).length = 4 && (s2.take 4).all Char.isDigit then
    let paren := if (s2.drop 4).head? = some ')' then 1 else 0
    some (n0 + p1 + 4 + paren)
  else none

/-- Match `\s*\([^)]*\)` at the start of `s`. -/
def parenMatcher (s : Str) : Option Nat :=
  let n0 := wsLen s
  match s.drop n0 with
  | '(' :: rest =>
    let body := (rest.takeWhile (fun c => c != ')')).length
    match (rest.drop body).head? with
    | some ')' => some (n0 + 1 + body + 1)
    | _ => none
  | _ => none

/-- Scan of a global regex replace-with-empty: drop each reported match,
otherwise keep the character and advance.  `fuel` starts at the string
length; every step consumes at least one character. -/
def replaceAllAux (m : Str → Option Nat) : Nat → Str → Str
  | 0, s => s
  | _ + 1, [] => []
  | fuel + 1, x :: xs =>
    match m (x :: xs) with
    | some (n + 1) => replaceAllAux m fuel (List.drop (n + 1) (x :: xs))
    | _ => x :: replaceAllAux m fuel xs

/-- JS `s.replace(regex, '')` with the `g` flag, for matcher `m`. -/
def replaceAllWith (m : Str → Option Nat) (s : Str) : Str :=
  replaceAllAux m s.length s

/-- JS `s.replace(/\s+/g, ' ')`. -/
def collapseWs : Str → Str
  | [] => []
  | [x] => if x.isWhitespace then [' '] else [x]
  | x :: y :: xs =>
    if x.isWhitespace then
      if y.isWhitespace then collapseWs (y :: xs)
      else ' ' :: y :: collapseWs xs
    else x :: collapseWs (y :: xs)

/-- `cleanTrackName` (src/src/services/youtubeService.ts 127-142): the five
regex removal passes in source order, whitespace collapse, and trim. -/
def cleanTrackName (trackName : Str) : Str :=
  jsTrim (collapseWs
    (replaceAllWith parenMatcher
      (replaceAllWith yearMatcher
        (replaceAllWith (dashMatcher remasterAlts)
          (replaceAllWith (dashMatcher mixAlts)
            (replaceAllWith featMatcher trackName))))))

/-! ### generateSearchQueries (src/src/services/youtubeService.ts 101-122) -/

/-- The seven query templates, in source order, built from the track name,
the primary artist name, and the cleaned track name. -/
def rawQueries (trackName artistName : Str) : List Str :=
  let clean := cleanTrackName trackName
  [ artistName ++ ' ' :: (clean ++ str " official"),
    artistName ++ ' ' :: (clean ++ str " official audio"),
    artistName ++ ' ' :: (clean ++ str " official video"),
    artistName ++ ' ' :: clean,
    trackName ++ ' ' :: artistName,
    clean ++ ' ' :: artistName,
    '"' :: (artistName ++ '"' :: ' ' :: '"' :: (clean ++ ['"'])) ]

/-- JS `[...new Set(queries)]` with the insertion-order set tracked in
`seen`: keep an element only on its first occurrence. -/
def dedupFirstAux (seen : List Str) : List Str → List Str
  | [] => []
  | a :: l =>
    if a ∈ seen then dedupFirstAux seen l
    else a :: dedupFirstAux (seen ++ [a]) l

/-- JS `[...new Set(queries)]`: deduplication keeping the first occurrence,
in first-occurrence order. -/
def dedupFirst (l : List Str) : List Str := dedupFirstAux [] l

/-- Index of the first occurrence of `x` in a query list (the list length
when absent); used to state that deduplication preserves first-occurrence
order. -/
def firstIdx (x : Str) : List Str → Nat
  | [] => 0
  | a :: l => if a = x then 0 else firstIdx x l + 1

/-- `generateSearchQueries`, parametrised by the two strings it reads. -/
def generateSearchQueriesCore (trackName artistName : Str) : List Str :=
  (dedupFirst (rawQueries trackName artistName)).filter
    (fun q => 0 < (jsTrim q).length)

/-- `generateSearchQueries` (src/src/services/youtubeService.ts 101-122). -/
def generateSearchQueries (t : SpotifyTrack) : List Str :=
  generateSearchQueriesCore t.name (primaryArtistName t)

/-! ### findBestMatch (src/src/services/youtubeService.ts 147-200) -/

/-- The per-candidate integer score computed inside `findBestMatch`. -/
def computeScore (t : SpotifyTrack) (v : YouTubeVideo) : Int :=
  let trackName := jsToLower t.name
  let artistName := jsToLower (primaryArtistName t)
  let videoTitle := jsToLower v.title
  let channelTitle := jsToLower v.channelTitle
  let score : Int := 0
  let score := score + (if jsIncludes videoTitle trackName then 3 else 0)
  let score := score + (if jsIncludes videoTitle artistName then 3 else 0)
  let trackWords := (jsSplitChar ' ' trackName).filter (fun w => 2 < w.length)
  let artistWords := (jsSplitChar ' ' artistName).filter (fun w => 2 < w.length)
  let score := score + (trackWords.countP (fun w => jsIncludes videoTitle w) : Int)
  let score := score + (artistWords.countP
    (fun w => jsIncludes videoTitle w || jsIncludes channelTitle w) : Int)
  let score := score + (if jsIncludes videoTitle (str "official") then 2 else 0)
  let score := score + (if jsIncludes channelTitle artistName then 2 else 0)
  let score := score - (if jsIncludes videoTitle (str "live") then 1 else 0)
  let score := score - (if jsIncludes videoTitle (str "cover") then 2 else 0)
  let score := score - (if jsIncludes videoTitle (str "karaoke") then 3 else 0)
  let score := score +
    (if jsIncludes channelTitle (str "official") ||
        jsIncludes channelTitle (str "records") then 1 else 0)
  score

/-- One step of the `for (const video of videos)` loop: replace the running
best only on a strictly larger score. -/
def bestStep (t : SpotifyTrack) (acc : Option YouTubeVideo × Int)
    (v : YouTubeVideo) : Option YouTubeVideo × Int :=
  let s := computeScore t v
  if acc.2 < s then (some v, s) else acc

/-- `findBestMatch` (src/src/services/youtubeService.ts 147-200):
`bestScore` starts at 0, the loop keeps the first strictly-improving
candidate, and the result is returned only when `bestScore >= 2`. -/
def findBestMatch (t : SpotifyTrack) (videos : List YouTubeVideo) :
    Option YouTubeVideo :=
  match videos with
  | [] => none
  | _ :: _ =>
    let r := videos.foldl (bestStep t) (none, 0)
    if 2 ≤ r.2 then r.1 else none

/-- Running maximum of candidate scores with initial value `s₀`. -/
def maxScoreFrom (t : SpotifyTrack) (s₀ : Int) (videos : List YouTubeVideo) :
    Int :=
  videos.foldl (fun a v => max a (computeScore t v)) s₀

/-! ### The two confidence formulas -/

/-- `calculateMatchConfidence` (src/src/scripts/search-tracks.ts 47-75):
base 0.5, bonuses, penalties, clamp to [0, 1]. -/
def calculateMatchConfidence (track : SpotifyTrack) (video : YouTubeVideo) :
    Rat :=
  let trackName := jsToLower track.name
  let artistName := jsToLower (primaryArtistName track)
  let videoTitle := jsToLower video.title
  let channelTitle := jsToLower video.channelTitle
  let confidence : Rat := 1/2
  let confidence := confidence +
    (if jsIncludes videoTitle trackName then 3/10 else 0)
  let confidence := confidence +
    (if jsIncludes videoTitle artistName || jsIncludes channelTitle artistName
     then 1/5 else 0)
  let confidence := confidence +
    (if videoTitle = artistName ++ ' ' :: trackName ∨
        videoTitle = trackName ++ ' ' :: artistName then 1/5 else 0)
  let confidence := confidence +
    (if jsIncludes videoTitle (str "official") then 1/10 else 0)
  let confidence := confidence +
    (if jsIncludes channelTitle artistName then 1/10 else 0)
  let confidence := confidence -
    (if jsIncludes videoTitle (str "cover") || jsIncludes videoTitle (str "remix")
     then 1/5 else 0)
  let confidence := confidence -
    (if jsIncludes videoTitle (str "live") || jsIncludes videoTitle (str "concert")
     then 1/10 else 0)
  let confidence := confidence -
    (if jsIncludes videoTitle (str "karaoke") ||
        jsIncludes videoTitle (str "instrumental") then 3/10 else 0)
  max 0 (min 1 confidence)

/-- `YouTubeService.calculateConfidence`
(src/src/services/youtubeService.ts 387-403): base 0.5, three bonuses, no
penalty terms, capped at 1 by `Math.min` with no lower clamp. -/
def calculateConfidence (track : SpotifyTrack) (video : YouTubeVideo) : Rat :=
  let trackName := jsToLower track.name
  let artistName := jsToLower (primaryArtistName track)
  let videoTitle := jsToLower video.title
  let channelTitle := jsToLower video.channelTitle
  let confidence : Rat := 1/2
  let confidence := confidence +
    (if jsIncludes videoTitle trackName then 3/10 else 0)
  let confidence := confidence +
    (if jsIncludes videoTitle artistName || jsIncludes channelTitle artistName
     then 1/5 else 0)
  let confidence := confidence +
    (if jsIncludes videoTitle (str "official") then 1/10 else 0)
  min confidence 1

/-! ### searchVideo (src/src/services/youtubeService.ts 44-72)

`searchVideos` performs the network call and throws a typed error on
failure; it is modelled by an oracle returning `Except Unit (List
YouTubeVideo)`.  The `try { … }` block of `searchVideo` encloses the whole
query loop, so a thrown error on any query is caught outside the loop and
the function returns `null`. -/

/-- Result of one `searchVideos(query, 5)` call: candidate list, or the
thrown `ApiError`. -/
def SearchOracle : Type := Str → Except Unit (List YouTubeVideo)

/-- The query loop of `searchVideo`, over a given query list.  An oracle
error propagates to the catch that wraps the loop: the whole track
resolution ends with `none`. -/
def searchVideoGo (t : SpotifyTrack) (oracle : SearchOracle) :
    List Str → Option YouTubeVideo
  | [] => none
  | q :: qs =>
    match oracle q with
    | .error _ => none
    | .ok videos =>
      if 0 < videos.length then
        match findBestMatch t videos with
        | some best => some best
        | none => searchVideoGo t oracle qs
      else searchVideoGo t oracle qs

/-- `searchVideo` (src/src/services/youtubeService.ts 44-72). -/
def searchVideo (t : SpotifyTrack) (oracle : SearchOracle) :
    Option YouTubeVideo :=
  searchVideoGo t oracle (generateSearchQueries t)

/-- Modelled from the spec: the spec's orchestrator treats a network/search
failure on one query as "no candidates for this query" and advances to the
next query.  (The source's `searchVideo` instead catches outside the loop;
this definition exists to be compared with `searchVideoGo`.) -/
def searchVideoTolerantGo (t : SpotifyTrack) (oracle : SearchOracle) :
    List Str → Option YouTubeVideo
  | [] => none
  | q :: qs =>
    match oracle q with
    | .error _ => searchVideoTolerantGo t oracle qs
    | .ok videos =>
      if 0 < videos.length then
        match findBestMatch t videos with
        | some best => some best
        | none => searchVideoTolerantGo t oracle qs
      else searchVideoTolerantGo t oracle qs

/-- The spec-described per-query-tolerant resolution over the generated
queries. -/
def searchVideoTolerant (t : SpotifyTrack) (oracle : SearchOracle) :
    Option YouTubeVideo :=
  searchVideoTolerantGo t oracle (generateSearchQueries t)

/-- The queries the `searchVideo` loop actually issues before it stops
(match found, error thrown, or list exhausted), in order. -/
def queriesIssuedGo (t : SpotifyTrack) (oracle : SearchOracle) :
    List Str → List Str
  | [] => []
  | q :: qs =>
    match oracle q with
    | .error _ => [q]
    | .ok videos =>
      if 0 < videos.length then
        match findBestMatch t videos with
        | some _ => [q]
        | none => q :: queriesIssuedGo t oracle qs
      else q :: queriesIssuedGo t oracle qs

/-- Queries issued for a track by `searchVideo`, in order. -/
def queriesIssued (t : SpotifyTrack) (oracle : SearchOracle) : List Str :=
  queriesIssuedGo t oracle (generateSearchQueries t)

/-! ### Progress state machine (src/src/scripts/search-tracks.ts) -/

/-- `TrackSearchResult` (src/src/scripts/search-tracks.ts 12-18). -/
structure TrackSearchResult where
  spotify_track : SpotifyTrack
  youtube_video : Option YouTubeVideo
  confidence : Rat
  search_date : Str
  search_queries_tried : List Str
deriving DecidableEq

/-- The `spotify_playlist` header of a progress file. -/
structure PlaylistInfo where
  id : Str
  name : Str
  total_tracks : Nat
  url : Str
deriving DecidableEq

/-- The `progress` cursor of `SearchProgress`. -/
structure ProgressCursor where
  tracks_processed : Nat
  tracks_found : Nat
  tracks_not_found : Nat
  last_updated : Str
  batch_size : Nat
  current_batch_start : Nat
deriving DecidableEq

/-- The `search_stats` block of `SearchProgress`. -/
structure SearchStats where
  total_quota_used : Nat
  searches_performed : Nat
  start_time : Str
  last_session_time : Option Str
deriving DecidableEq

/-- `SearchProgress` (src/src/scripts/search-tracks.ts 20-42). -/
structure SearchProgress where
  spotify_playlist : PlaylistInfo
  tracks : List TrackSearchResult
  progress : ProgressCursor
  search_stats : SearchStats
deriving DecidableEq

/-- The fresh record built by `loadOrCreateProgress` when no progress file
exists (src/src/scripts/search-tracks.ts 96-120). -/
def freshProgress (pl : PlaylistInfo) (batchSize : Nat) (now : Str) :
    SearchProgress :=
  { spotify_playlist := pl
    tracks := []
    progress :=
      { tracks_processed := 0, tracks_found := 0, tracks_not_found := 0,
        last_updated := now, batch_size := batchSize,
        current_batch_start := 0 }
    search_stats :=
      { total_quota_used := 0, searches_performed := 0, start_time := now,
        last_session_time := none } }

/-- Outcome of the awaited `youtubeService.searchVideo(track)` call inside
`searchTrackBatch`: its `YouTubeVideo | null` result, or a thrown error
(the `catch` path). -/
inductive SearchOutcome where
  | ok : Option YouTubeVideo → SearchOutcome
  | err : SearchOutcome
deriving DecidableEq

/-- The body of the `for` loop of `searchTrackBatch`
(src/src/scripts/search-tracks.ts 151-208) for one track at global index
`gIdx`: push the result, bump the counters, and checkpoint (`saveProgress`)
when `(gIdx + 1) % 5 == 0` on the success path.  Returns the new state and
the checkpoint snapshots written during this step. -/
def recordTrackOutcome (tr : SpotifyTrack) (oc : SearchOutcome) (now : Str)
    (gIdx : Nat) (p : SearchProgress) : SearchProgress × List SearchProgress :=
  match oc with
  | .ok vid? =>
    let conf : Rat := match vid? with
      | some v => calculateMatchConfidence tr v
      | none => 0
    let res : TrackSearchResult :=
      { spotify_track := tr, youtube_video := vid?, confidence := conf,
        search_date := now, search_queries_tried := [] }
    let p1 : SearchProgress :=
      { p with
        tracks := p.tracks ++ [res]
        progress :=
          { p.progress with
            tracks_processed := p.progress.tracks_processed + 1 }
        search_stats :=
          { p.search_stats with
            searches_performed := p.search_stats.searches_performed + 1,
            total_quota_used := p.search_stats.total_quota_used + 100 } }
    let p2 : SearchProgress :=
      if vid?.isSome then
        { p1 with progress :=
          { p1.progress with tracks_found := p1.progress.tracks_found + 1 } }
      else
        { p1 with progress :=
          { p1.progress with
            tracks_not_found := p1.progress.tracks_not_found + 1 } }
    if (gIdx + 1) % 5 = 0 then
      let p3 : SearchProgress :=
        { p2 with progress :=
          { p2.progress with current_batch_start := gIdx + 1 } }
      (p3, [p3])
    else (p2, [])
  | .err =>
    let res : TrackSearchResult :=
      { spotify_track := tr, youtube_video := none, confidence := 0,
        search_date := now, search_queries_tried := [] }
    let p1 : SearchProgress :=
      { p with
        tracks := p.tracks ++ [res]
        progress :=
          { p.progress with
            tracks_processed := p.progress.tracks_processed + 1,
            tracks_not_found := p.progress.tracks_not_found + 1 } }
    (p1, [])

/-- The `for` loop of `searchTrackBatch` over the batch slice, with
per-index outcomes supplied by `outcomes`. -/
def runBatchLoop (now : Str) (outcomes : Nat → SearchOutcome) :
    List SpotifyTrack → Nat → SearchProgress →
    SearchProgress × List SearchProgress
  | [], _, p => (p, [])
  | tr :: rest, gIdx, p =>
    let r1 := recordTrackOutcome tr (outcomes gIdx) now gIdx p
    let r2 := runBatchLoop now outcomes rest (gIdx + 1) r1.1
    (r2.1, r1.2 ++ r2.2)

/-- `searchTrackBatch` (src/src/scripts/search-tracks.ts 138-213), called
as in `main` with `startIndex = progress.progress.current_batch_start`:
process the slice `[startIndex, endIndex)`, then set
`current_batch_start = endIndex` and checkpoint.  Returns the final state
and all checkpoint snapshots, in order. -/
def setCursor (q : SearchProgress) (e : Nat) : SearchProgress :=
  { q with progress := { q.progress with current_batch_start := e } }

def runBatch (allTracks : List SpotifyTrack) (outcomes : Nat → SearchOutcome)
    (now : Str) (batchSize : Nat) (p : SearchProgress) :
    SearchProgress × List SearchProgress :=
  let startIndex := p.progress.current_batch_start
  let endIndex := min (startIndex + batchSize) allTracks.length
  let batch := (allTracks.drop startIndex).take (endIndex - startIndex)
  let r := runBatchLoop now outcomes batch startIndex p
  let pEnd := setCursor r.1 endIndex
  (pEnd, r.2 ++ [pEnd])

/-- A sequence of search sessions, each re-invoking `searchTrackBatch`
from the persisted cursor with its own outcomes and batch size. -/
def runSessions (allTracks : List SpotifyTrack) (now : Str) :
    List ((Nat → SearchOutcome) × Nat) → SearchProgress →
    SearchProgress × List SearchProgress
  | [], p => (p, [])
  | (outcomes, bs) :: rest, p =>
    let r1 := runBatch allTracks outcomes now bs p
    let r2 := runSessions allTracks now rest r1.1
    (r2.1, r1.2 ++ r2.2)

/-- The cursor equalities claimed for every checkpoint:
`tracks_processed = tracks.length`,
`tracks_found + tracks_not_found = tracks_processed`, and
`current_batch_start = tracks_processed`. -/
def checkInv (p : SearchProgress) : Bool :=
  (p.progress.tracks_processed == p.tracks.length) &&
  (p.progress.tracks_found + p.progress.tracks_not_found ==
    p.progress.tracks_processed) &&
  (p.progress.current_batch_start == p.progress.tracks_processed)

/-! ### Playlist build (create-playlist script) -/

/-- The created YouTube playlist (`YouTubePlaylistResponse` fields the
scripts read). -/
structure YouTubePlaylistRef where
  id : Str
  title : Str
deriving DecidableEq

/-- `TrackFailure` of the create-playlist script: the failed search result
together with the classified error. -/
structure TrackFailure where
  track : TrackSearchResult
  error : Str
  errorType : Str
deriving DecidableEq

/-- Outcome of one awaited `addVideoToPlaylist` call: `{success: true}`,
`{success: false, error, errorType}`, or a thrown error (the `catch`
path, classified as `UNEXPECTED_ERROR`). -/
inductive AddOutcome where
  | ok : AddOutcome
  | fail : Str → Str → AddOutcome
  | crash : Str → AddOutcome
deriving DecidableEq

/-- `failureBreakdown[k] = (failureBreakdown[k] || 0) + 1` on a JS object
modelled as an insertion-ordered association list. -/
def bumpCount (m : List (Str × Nat)) (k : Str) : List (Str × Nat) :=
  match m with
  | [] => [(k, 1)]
  | (k', n) :: rest =>
    if k' = k then (k', n + 1) :: rest else (k', n) :: bumpCount rest k

/-- `failureBreakdown[k] || 0`: the recorded count for an error kind. -/
def countOf (m : List (Str × Nat)) (k : Str) : Nat :=
  match m.find? (fun e => e.1 == k) with
  | some e => e.2
  | none => 0

/-- `creation_stats` of `PlaylistCreationResult`. -/
structure CreationStats where
  quota_used : Nat
  creation_time : Str
  success_rate : Rat
  failure_breakdown : List (Str × Nat)
deriving DecidableEq

/-- `PlaylistCreationResult` as produced by the create-playlist script
(`tracks_failed` holds `TrackFailure` entries there). -/
structure PlaylistCreationResult where
  youtube_playlist : YouTubePlaylistRef
  tracks_added : List TrackSearchResult
  tracks_failed : List TrackFailure
  creation_stats : CreationStats
deriving DecidableEq

/-- The add loop of `createPlaylistFromResults` (create-playlist script):
each matched track goes to `tracksAdded` on success or to `tracksFailed`
(with the per-kind counter bumped) on failure; +50 quota per success. -/
def addVideosGo (addOracle : Nat → AddOutcome) :
    List TrackSearchResult → Nat → List TrackSearchResult →
    List TrackFailure → List (Str × Nat) → Nat →
    List TrackSearchResult × List TrackFailure × List (Str × Nat) × Nat
  | [], _, added, failed, bd, quota => (added, failed, bd, quota)
  | r :: rest, i, added, failed, bd, quota =>
    match addOracle i with
    | .ok => addVideosGo addOracle rest (i + 1) (added ++ [r]) failed bd (quota + 50)
    | .fail errorType error =>
      addVideosGo addOracle rest (i + 1) added
        (failed ++ [{ track := r, error := error, errorType := errorType }])
        (bumpCount bd errorType) quota
    | .crash msg =>
      addVideosGo addOracle rest (i + 1) added
        (failed ++ [{ track := r, error := str "Unexpected error: " ++ msg,
                      errorType := str "UNEXPECTED_ERROR" }])
        (bumpCount bd (str "UNEXPECTED_ERROR")) quota

/-- `createPlaylistFromResults` (create-playlist script): filter the
progress record to tracks with a present video, abort when there are none,
add each in order, and record the stats.  The quota starts at the
playlist-creation cost of 50. -/
def createPlaylistFromResults (progress : SearchProgress)
    (addOracle : Nat → AddOutcome) (ytPlaylist : YouTubePlaylistRef)
    (now : Str) : Except Str PlaylistCreationResult :=
  let tracksWithMatches :=
    progress.tracks.filter (fun r => r.youtube_video.isSome)
  if tracksWithMatches.length = 0 then
    .error (str "No tracks with YouTube matches found. Cannot create empty playlist.")
  else
    let r := addVideosGo addOracle tracksWithMatches 0 [] [] [] 50
    .ok
      { youtube_playlist := ytPlaylist
        tracks_added := r.1
        tracks_failed := r.2.1
        creation_stats :=
          { quota_used := r.2.2.2
            creation_time := now
            success_rate := (r.1.length : Rat) / (tracksWithMatches.length : Rat)
            failure_breakdown := r.2.2.1 } }

/-! ### Retry of failed tracks (retry-failed script)

In the retry script the persisted `tracks_failed` entries are
`TrackSearchResult` objects, so its record type differs from the one the
create-playlist script writes. -/

/-- `PlaylistCreationResult` as the retry-failed script declares it:
`tracks_failed` holds `TrackSearchResult` entries. -/
structure RetryCreationResult where
  youtube_playlist : YouTubePlaylistRef
  tracks_added : List TrackSearchResult
  tracks_failed : List TrackSearchResult
  creation_stats : CreationStats
deriving DecidableEq

/-- The loop of `retryFailedTracks` (retry-failed script 146-181): each
failed entry is re-attempted once; success appends it to `newlyAdded`
(+50 quota), failure or a thrown error appends it to `stillFailed`. -/
def retryGo (addOracle : Nat → AddOutcome) :
    List TrackSearchResult → Nat → List TrackSearchResult →
    List TrackSearchResult → Nat →
    List TrackSearchResult × List TrackSearchResult × Nat
  | [], _, newlyAdded, stillFailed, quota => (newlyAdded, stillFailed, quota)
  | r :: rest, i, newlyAdded, stillFailed, quota =>
    match addOracle i with
    | .ok => retryGo addOracle rest (i + 1) (newlyAdded ++ [r]) stillFailed (quota + 50)
    | .fail _ _ => retryGo addOracle rest (i + 1) newlyAdded (stillFailed ++ [r]) quota
    | .crash _ => retryGo addOracle rest (i + 1) newlyAdded (stillFailed ++ [r]) quota

/-- `retryFailedTracks` (retry-failed script 130-184). -/
def retryFailedTracks (addOracle : Nat → AddOutcome)
    (failedTracks : List TrackSearchResult) :
    List TrackSearchResult × List TrackSearchResult × Nat :=
  retryGo addOracle failedTracks 0 [] [] 0

/-- The `updatedResult` record built after the retry (retry-failed script
306-317): `tracks_added` grows by `newlyAdded`, `tracks_failed` becomes
`stillFailed`, the success rate is recomputed from the previous counts,
and `failure_breakdown` is reset to the empty object. -/
def updatedResult (result : RetryCreationResult)
    (rr : List TrackSearchResult × List TrackSearchResult × Nat)
    (now : Str) : RetryCreationResult :=
  { youtube_playlist := result.youtube_playlist
    tracks_added := result.tracks_added ++ rr.1
    tracks_failed := rr.2.1
    creation_stats :=
      { quota_used := result.creation_stats.quota_used + rr.2.2
        creation_time := now
        success_rate :=
          ((result.tracks_added.length + rr.1.length : Nat) : Rat) /
          ((result.tracks_added.length + result.tracks_failed.length : Nat) : Rat)
        failure_breakdown := [] } }

/-! ### Concrete sample data (used to instantiate the theorems below) -/

/-- A sample artist named "artist". -/
def sampleArtist : SpotifyArtist :=
  { id := str "a1", name := str "artist", spotify_url := str "" }

/-- A sample track "song" by "artist". -/
def sampleTrack : SpotifyTrack :=
  { id := str "t1", name := str "song", artists := [sampleArtist],
    duration_ms := 200, spotify_url := str "" }

/-- A well-matching candidate: official video on the artist channel. -/
def sampleVideo : YouTubeVideo :=
  { videoId := str "v1", title := str "artist song official video",
    channelTitle := str "artist", publishedAt := str "" }

/-- A poorly-matching candidate (scores negative for `sampleTrack`). -/
def coverVideo : YouTubeVideo :=
  { videoId := str "v2", title := str "random coffee shop cover",
    channelTitle := str "someone", publishedAt := str "" }

/-- A search oracle that fails on the first generated query of
`sampleTrack` and returns a perfect candidate on every other query. -/
def errFirstOracle : SearchOracle := fun q =>
  if q = str "artist song official" then .error () else .ok [sampleVideo]

/-- A search oracle that always returns the perfect candidate. -/
def okOracle : SearchOracle := fun _ => .ok [sampleVideo]

/-- Per-track search outcomes: every track resolves to `sampleVideo`. -/
def outcomeOkAt : Nat → SearchOutcome := fun _ => .ok (some sampleVideo)

/-- The empty timestamp used in the sample runs. -/
def now0 : Str := str ""

/-- Sample playlist header. -/
def samplePlaylist : PlaylistInfo :=
  { id := str "p1", name := str "pl", total_tracks := 2, url := str "" }

/-- A recorded search result with a present video. -/
def resultA : TrackSearchResult :=
  { spotify_track := sampleTrack, youtube_video := some sampleVideo,
    confidence := 1, search_date := str "", search_queries_tried := [] }

/-- The search result `searchTrackBatch` records for `sampleTrack` when the
search returns `sampleVideo` (its match confidence evaluates to 1). -/
def recordedResult : TrackSearchResult :=
  { spotify_track := sampleTrack, youtube_video := some sampleVideo,
    confidence := 1, search_date := now0, search_queries_tried := [] }

/-- A progress record holding two matched tracks. -/
def sampleProgressTwo : SearchProgress :=
  { spotify_playlist := samplePlaylist
    tracks := [resultA, resultA]
    progress :=
      { tracks_processed := 2, tracks_found := 2, tracks_not_found := 0,
        last_updated := str "", batch_size := 50, current_batch_start := 2 }
    search_stats :=
      { total_quota_used := 200, searches_performed := 2,
        start_time := str "", last_session_time := none } }

/-- The destination playlist of the sample build. -/
def ytRef : YouTubePlaylistRef := { id := str "yt1", title := str "My Playlist" }

/-- An add oracle: the first add succeeds, every later one fails as
`VIDEO_NOT_FOUND`. -/
def addFailOracle : Nat → AddOutcome := fun i =>
  if i = 0 then .ok
  else .fail (str "VIDEO_NOT_FOUND") (str "Video not found or has been deleted")

/-- An add oracle on which every add fails as `VIDEO_NOT_FOUND`. -/
def allFailOracle : Nat → AddOutcome := fun _ =>
  .fail (str "VIDEO_NOT_FOUND") (str "Video not found or has been deleted")

/-- The build record produced from `sampleProgressTwo` with
`addFailOracle`. -/
def builtSample : PlaylistCreationResult :=
  { youtube_playlist := ytRef
    tracks_added := [resultA]
    tracks_failed :=
      [{ track := resultA,
         error := str "Video not found or has been deleted",
         errorType := str "VIDEO_NOT_FOUND" }]
    creation_stats :=
      { quota_used := 100, creation_time := now0,
        success_rate := (1 : Rat) / 2,
        failure_breakdown := [(str "VIDEO_NOT_FOUND", 1)] } }

/-- A previous retry-script build record with one added and one failed
entry (its `tracks_failed` entries are search results, as that script
stores them). -/
def prevRetryResult : RetryCreationResult :=
  { youtube_playlist := ytRef
    tracks_added := [resultA]
    tracks_failed := [resultA]
    creation_stats :=
      { quota_used := 150, creation_time := str "",
        success_rate := (1 : Rat) / 2,
        failure_breakdown := [(str "VIDEO_NOT_FOUND", 1)] } }

/-- Decidable equality for `Except`, used to evaluate build results on
concrete inputs. -/
instance exceptDecEq {α β : Type} [DecidableEq α] [DecidableEq β] :
    DecidableEq (Except α β) := fun a b =>
  match a, b with
  | .error x, .error y =>
    decidable_of_iff (x = y) ⟨fun h => by rw [h], fun h => by cases h; rfl⟩
  | .ok x, .ok y =>
    decidable_of_iff (x = y) ⟨fun h => by rw [h], fun h => by cases h; rfl⟩
  | .error _, .ok _ => .isFalse (fun h => by cases h)
  | .ok _, .error _ => .isFalse (fun h => by cases h)

/-- Additional sample data: a per-track outcome with no video found. -/
def outcomeNoneAt : Nat → SearchOutcome := fun _ => .ok none

/-- A search oracle on which every query returns no candidates. -/
def noneOracle : SearchOracle := fun _ => .ok []

/-- The search result recorded for `sampleTrack` when no video is found. -/
def recordedMiss : TrackSearchResult :=
  { spotify_track := sampleTrack, youtube_video := none, confidence := 0,
    search_date := now0, search_queries_tried := [] }

/-! ## Theorems -/

/-- A conditional bonus of a nonnegative amount is nonnegative. -/
theorem rat_ite_nonneg {c : Prop} [Decidable c] {x : Rat} (hx : 0 ≤ x) :
    (0 : Rat) ≤ if c then x else 0 := by
  split
  · exact hx
  · exact le_refl 0

/-- `Math.max(0, Math.min(1, c))` lies in `[0, 1]`. -/
theorem clamp01_bounds (c : Rat) :
    0 ≤ max 0 (min 1 c) ∧ max 0 (min 1 c) ≤ 1 :=
  ⟨le_max_left 0 _, max_le (by norm_num) (min_le_left 1 c)⟩

/-- `Math.min(1/2 + bonuses, 1)` lies in `[1/2, 1]` when the bonuses are
nonnegative. -/
theorem half_min_bounds (t1 t2 t3 : Rat) (h1 : 0 ≤ t1) (h2 : 0 ≤ t2)
    (h3 : 0 ≤ t3) :
    1/2 ≤ min (1/2 + t1 + t2 + t3) 1 ∧ min (1/2 + t1 + t2 + t3) 1 ≤ 1 := by
  constructor
  · refine le_min ?_ (by norm_num)
    linarith
  · exact min_le_right _ _

/-- Bounds for the service-path confidence: it always lies in `[1/2, 1]`. -/
theorem calcConf_bounds (t : SpotifyTrack) (v : YouTubeVideo) :
    1/2 ≤ calculateConfidence t v ∧ calculateConfidence t v ≤ 1 :=
  half_min_bounds _ _ _ (rat_ite_nonneg (by norm_num))
    (rat_ite_nonneg (by norm_num)) (rat_ite_nonneg (by norm_num))

/-- Bounds for the script-path confidence: the final clamp keeps it in
`[0, 1]`. -/
theorem calcMatchConf_bounds (t : SpotifyTrack) (v : YouTubeVideo) :
    0 ≤ calculateMatchConfidence t v ∧ calculateMatchConfidence t v ≤ 1 :=
  clamp01_bounds _

/-- Claim C6: for every track and every matched video, the computed
confidence lies in the closed interval `[0, 1]` in both
confidence-computing code paths (`calculateMatchConfidence` in the search
script and `YouTubeService.calculateConfidence`). -/
theorem confidence_in_unit_interval (t : SpotifyTrack) (v : YouTubeVideo) :
    (0 ≤ calculateMatchConfidence t v ∧ calculateMatchConfidence t v ≤ 1) ∧
    (0 ≤ calculateConfidence t v ∧ calculateConfidence t v ≤ 1) :=
  ⟨calcMatchConf_bounds t v,
   ⟨le_trans (by norm_num) (calcConf_bounds t v).1, (calcConf_bounds t v).2⟩⟩

/-- Claim C10: the confidence formula in `YouTubeService.calculateConfidence`
(the path used by `findMatchesForTracks`) has no penalty terms: its result
always lies in `[1/2, 1]`, so this path never reports a confidence below
the 0.5 base, even for titles containing "cover", "karaoke", or "live". -/
theorem calculateConfidence_no_penalties (t : SpotifyTrack) (v : YouTubeVideo) :
    1/2 ≤ calculateConfidence t v ∧ calculateConfidence t v ≤ 1 :=
  calcConf_bounds t v

/-- Claim C2, counterexample: with an oracle that fails the first generated
query of `sampleTrack` and would return a perfect candidate on the second,
`searchVideo` ends the whole track with no video, while the spec-described
per-query-tolerant orchestration finds the match.  A per-query failure is
therefore not treated like "no candidates for this query". -/
theorem searchVideo_not_query_tolerant :
    searchVideo sampleTrack errFirstOracle = none ∧
    searchVideoTolerant sampleTrack errFirstOracle = some sampleVideo ∧
    searchVideo sampleTrack errFirstOracle ≠
      searchVideoTolerant sampleTrack errFirstOracle := by
  refine ⟨by decide, by decide, by decide⟩

/-- Claim C2, amended: a network/search failure on any single query ends
resolution of the whole track immediately with no video (the `try`/`catch`
of `searchVideo` wraps the entire query loop), and no further query is
issued; it is not treated as "no candidates for this query". -/
theorem searchVideo_error_aborts_track (t : SpotifyTrack)
    (oracle : SearchOracle) (q : Str) (qs : List Str) (e : Unit)
    (h : oracle q = .error e) :
    searchVideoGo t oracle (q :: qs) = none ∧
    queriesIssuedGo t oracle (q :: qs) = [q] := by
  constructor
  · simp [searchVideoGo, h]
  · simp [queriesIssuedGo, h]

/-- Witness for C2's amended theorem at a concrete failing query. -/
theorem searchVideo_error_aborts_track_instance :
    searchVideoGo sampleTrack errFirstOracle (str "artist song official" :: []) = none ∧
    queriesIssuedGo sampleTrack errFirstOracle (str "artist song official" :: []) =
      [str "artist song official"] :=
  searchVideo_error_aborts_track sampleTrack errFirstOracle
    (str "artist song official") [] () (by decide)

/-- The initial value bounds the running maximum from below. -/
theorem le_maxScoreFrom (t : SpotifyTrack) :
    ∀ (l : List YouTubeVideo) (s₀ : Int), s₀ ≤ maxScoreFrom t s₀ l := by
  intro l
  induction l with
  | nil => intro s₀; exact le_refl s₀
  | cons v vs ih =>
    intro s₀
    have h1 : maxScoreFrom t s₀ (v :: vs) =
        maxScoreFrom t (max s₀ (computeScore t v)) vs := rfl
    rw [h1]
    exact le_trans (le_max_left _ _) (ih _)

/-- The running maximum commutes with `max` on the initial value. -/
theorem maxScoreFrom_max (t : SpotifyTrack) :
    ∀ (l : List YouTubeVideo) (a b : Int),
      maxScoreFrom t (max a b) l = max a (maxScoreFrom t b l) := by
  intro l
  induction l with
  | nil => intro a b; rfl
  | cons v vs ih =>
    intro a b
    show maxScoreFrom t (max (max a b) (computeScore t v)) vs =
      max a (maxScoreFrom t (max b (computeScore t v)) vs)
    rw [max_assoc, ih]

/-- The running maximum is the initial value or the score of some listed
candidate. -/
theorem maxScoreFrom_attained (t : SpotifyTrack) :
    ∀ (l : List YouTubeVideo) (s₀ : Int),
      maxScoreFrom t s₀ l = s₀ ∨
      ∃ v ∈ l, computeScore t v = maxScoreFrom t s₀ l := by
  intro l
  induction l with
  | nil => intro s₀; exact Or.inl rfl
  | cons v vs ih =>
    intro s₀
    have h1 : maxScoreFrom t s₀ (v :: vs) =
        maxScoreFrom t (max s₀ (computeScore t v)) vs := rfl
    rcases ih (max s₀ (computeScore t v)) with h | ⟨w, hw, hweq⟩
    · rcases max_cases s₀ (computeScore t v) with ⟨hm, _⟩ | ⟨hm, _⟩
      · exact Or.inl (by rw [h1, h, hm])
      · exact Or.inr ⟨v, List.mem_cons_self v vs, by rw [h1, h, hm]⟩
    · exact Or.inr ⟨w, List.mem_cons_of_mem v hw, by rw [h1]; exact hweq⟩

/-- Every listed candidate's score is bounded by the running maximum. -/
theorem le_maxScoreFrom_of_mem (t : SpotifyTrack) :
    ∀ (l : List YouTubeVideo) (s₀ : Int) (v : YouTubeVideo), v ∈ l →
      computeScore t v ≤ maxScoreFrom t s₀ l := by
  intro l
  induction l with
  | nil => intro s₀ v hv; cases hv
  | cons w vs ih =>
    intro s₀ v hv
    have h1 : maxScoreFrom t s₀ (w :: vs) =
        maxScoreFrom t (max s₀ (computeScore t w)) vs := rfl
    rcases List.mem_cons.mp hv with rfl | hmem
    · rw [h1, max_comm s₀ (computeScore t v), maxScoreFrom_max]
      exact le_max_left _ _
    · rw [h1]; exact ih _ v hmem

/-- Characterisation of the candidate loop of `findBestMatch`: the final
score is the running maximum, the best candidate is unchanged when nothing
exceeded the initial score, and otherwise it is the first candidate whose
score equals the final score. -/
theorem foldBest_spec (t : SpotifyTrack) :
    ∀ (l : List YouTubeVideo) (b₀ : Option YouTubeVideo) (s₀ : Int),
      ((List.foldl (bestStep t) (b₀, s₀) l).2 = maxScoreFrom t s₀ l) ∧
      ((List.foldl (bestStep t) (b₀, s₀) l).2 = s₀ →
        (List.foldl (bestStep t) (b₀, s₀) l).1 = b₀) ∧
      (s₀ < (List.foldl (bestStep t) (b₀, s₀) l).2 →
        (List.foldl (bestStep t) (b₀, s₀) l).1 =
          List.find?
            (fun w => computeScore t w == (List.foldl (bestStep t) (b₀, s₀) l).2)
            l) := by
  intro l
  induction l with
  | nil =>
    intro b₀ s₀
    exact ⟨rfl, fun _ => rfl, fun h => absurd h (lt_irrefl s₀)⟩
  | cons v vs ih =>
    intro b₀ s₀
    by_cases h : s₀ < computeScore t v
    · have hstep : List.foldl (bestStep t) (b₀, s₀) (v :: vs) =
          List.foldl (bestStep t) (some v, computeScore t v) vs := by
        simp only [List.foldl_cons, bestStep, if_pos h]
      obtain ⟨ih1, ih2, ih3⟩ := ih (some v) (computeScore t v)
      have hub : computeScore t v ≤
          (List.foldl (bestStep t) (some v, computeScore t v) vs).2 := by
        rw [ih1]; exact le_maxScoreFrom t vs _
      refine ⟨?_, ?_, ?_⟩
      · rw [hstep, ih1]
        conv_rhs =>
          rw [show maxScoreFrom t s₀ (v :: vs) =
            maxScoreFrom t (max s₀ (computeScore t v)) vs from rfl,
            max_eq_right h.le]
      · intro hs
        rw [hstep] at hs
        exact absurd hs (by omega)
      · intro _
        rw [hstep]
        by_cases heq :
          (List.foldl (bestStep t) (some v, computeScore t v) vs).2 =
            computeScore t v
        · have hp : (computeScore t v ==
              (List.foldl (bestStep t) (some v, computeScore t v) vs).2) =
              true := beq_iff_eq.mpr heq.symm
          rw [ih2 heq]
          simp [List.find?, hp]
        · have hlt : computeScore t v <
            (List.foldl (bestStep t) (some v, computeScore t v) vs).2 :=
            lt_of_le_of_ne hub (fun hh => heq hh.symm)
          have hp : (computeScore t v ==
              (List.foldl (bestStep t) (some v, computeScore t v) vs).2) =
              false := by
            simp only [beq_eq_false_iff_ne]
            omega
          rw [ih3 hlt]
          simp [List.find?, hp]
    · have hstep : List.foldl (bestStep t) (b₀, s₀) (v :: vs) =
          List.foldl (bestStep t) (b₀, s₀) vs := by
        simp only [List.foldl_cons, bestStep, if_neg h]
      obtain ⟨ih1, ih2, ih3⟩ := ih b₀ s₀
      refine ⟨?_, ?_, ?_⟩
      · rw [hstep, ih1]
        conv_rhs =>
          rw [show maxScoreFrom t s₀ (v :: vs) =
            maxScoreFrom t (max s₀ (computeScore t v)) vs from rfl,
            max_eq_left (not_lt.mp h)]
      · intro hs
        rw [hstep] at hs ⊢
        exact ih2 hs
      · intro hgt
        rw [hstep] at hgt ⊢
        have hp : (computeScore t v ==
            (List.foldl (bestStep t) (b₀, s₀) vs).2) = false := by
          simp only [beq_eq_false_iff_ne]
          omega
        rw [ih3 hgt]
        simp [List.find?, hp]

/-- Claim C1: for every track and every non-empty candidate list
`v :: vs`, writing `M = maxScoreFrom t (computeScore t v) vs` for the
maximum score over the list: some candidate attains `M`, every candidate
scores at most `M`, and `findBestMatch` returns the first candidate whose
score equals `M` (so a later candidate with an equal score never replaces
the current best) if and only if `M ≥ 2`; otherwise it returns `none`. -/
theorem findBestMatch_selects_strict_max (t : SpotifyTrack)
    (v : YouTubeVideo) (vs : List YouTubeVideo) :
    (∃ w ∈ v :: vs,
      computeScore t w = maxScoreFrom t (computeScore t v) vs) ∧
    (∀ w ∈ v :: vs,
      computeScore t w ≤ maxScoreFrom t (computeScore t v) vs) ∧
    (2 ≤ maxScoreFrom t (computeScore t v) vs →
      ((v :: vs).find?
        (fun w => computeScore t w ==
          maxScoreFrom t (computeScore t v) vs)).isSome = true) ∧
    findBestMatch t (v :: vs) =
      (if 2 ≤ maxScoreFrom t (computeScore t v) vs then
        (v :: vs).find?
          (fun w => computeScore t w == maxScoreFrom t (computeScore t v) vs)
      else none) := by
  have hex : ∃ w ∈ v :: vs,
      computeScore t w = maxScoreFrom t (computeScore t v) vs := by
    rcases maxScoreFrom_attained t vs (computeScore t v) with h | ⟨w, hw, hweq⟩
    · exact ⟨v, List.mem_cons_self v vs, h.symm⟩
    · exact ⟨w, List.mem_cons_of_mem v hw, hweq⟩
  have hub : ∀ w ∈ v :: vs,
      computeScore t w ≤ maxScoreFrom t (computeScore t v) vs := by
    intro w hw
    rcases List.mem_cons.mp hw with rfl | hmem
    · exact le_maxScoreFrom t vs _
    · exact le_maxScoreFrom_of_mem t vs _ w hmem
  have hsome : 2 ≤ maxScoreFrom t (computeScore t v) vs →
      ((v :: vs).find?
        (fun w => computeScore t w ==
          maxScoreFrom t (computeScore t v) vs)).isSome = true := by
    intro _
    obtain ⟨w, hw, hweq⟩ := hex
    cases hf : (v :: vs).find?
        (fun w => computeScore t w ==
          maxScoreFrom t (computeScore t v) vs) with
    | none =>
      have := List.find?_eq_none.mp hf w hw
      simp [beq_iff_eq, hweq] at this
    | some u => rfl
  refine ⟨hex, hub, hsome, ?_⟩
  have h2 : (List.foldl (bestStep t) (none, 0) (v :: vs)).2 =
      max 0 (maxScoreFrom t (computeScore t v) vs) := by
    rw [(foldBest_spec t (v :: vs) none 0).1]
    rw [show maxScoreFrom t 0 (v :: vs) =
      maxScoreFrom t (max 0 (computeScore t v)) vs from rfl]
    exact maxScoreFrom_max t vs 0 (computeScore t v)
  show (if 2 ≤ (List.foldl (bestStep t) (none, 0) (v :: vs)).2 then
      (List.foldl (bestStep t) (none, 0) (v :: vs)).1 else none) = _
  by_cases hM : 2 ≤ maxScoreFrom t (computeScore t v) vs
  · have h0M : max 0 (maxScoreFrom t (computeScore t v) vs) =
        maxScoreFrom t (computeScore t v) vs :=
      max_eq_right (le_trans (by norm_num) hM)
    have hcond : 2 ≤ (List.foldl (bestStep t) (none, 0) (v :: vs)).2 := by
      rw [h2, h0M]; exact hM
    have hpos : (0 : Int) < (List.foldl (bestStep t) (none, 0) (v :: vs)).2 := by
      omega
    have h3 := (foldBest_spec t (v :: vs) none 0).2.2 hpos
    rw [if_pos hcond, if_pos hM, h3, h2, h0M]
  · have hcond : ¬ 2 ≤ (List.foldl (bestStep t) (none, 0) (v :: vs)).2 := by
      rw [h2]
      rcases max_cases 0 (maxScoreFrom t (computeScore t v) vs) with
        ⟨hm, _⟩ | ⟨hm, _⟩
      · rw [hm]; norm_num
      · rw [hm]; exact hM
    rw [if_neg hcond, if_neg hM]

/-- Witness for C1 at `sampleTrack` with candidates
`[sampleVideo, coverVideo]`. -/
theorem findBestMatch_selects_strict_max_instance :
    (∃ w ∈ sampleVideo :: [coverVideo],
      computeScore sampleTrack w =
        maxScoreFrom sampleTrack (computeScore sampleTrack sampleVideo)
          [coverVideo]) ∧
    (∀ w ∈ sampleVideo :: [coverVideo],
      computeScore sampleTrack w ≤
        maxScoreFrom sampleTrack (computeScore sampleTrack sampleVideo)
          [coverVideo]) ∧
    (2 ≤ maxScoreFrom sampleTrack (computeScore sampleTrack sampleVideo)
        [coverVideo] →
      ((sampleVideo :: [coverVideo]).find?
        (fun w => computeScore sampleTrack w ==
          maxScoreFrom sampleTrack (computeScore sampleTrack sampleVideo)
            [coverVideo])).isSome = true) ∧
    findBestMatch sampleTrack (sampleVideo :: [coverVideo]) =
      (if 2 ≤ maxScoreFrom sampleTrack (computeScore sampleTrack sampleVideo)
          [coverVideo] then
        (sampleVideo :: [coverVideo]).find?
          (fun w => computeScore sampleTrack w ==
            maxScoreFrom sampleTrack (computeScore sampleTrack sampleVideo)
              [coverVideo])
      else none) :=
  findBestMatch_selects_strict_max sampleTrack sampleVideo [coverVideo]

/-- The deduplicated list is a sublist of the input (order preserved). -/
theorem dedupFirstAux_sublist :
    ∀ (l seen : List Str), List.Sublist (dedupFirstAux seen l) l := by
  intro l
  induction l with
  | nil => intro seen; simp [dedupFirstAux]
  | cons a t ih =>
    intro seen
    by_cases h : a ∈ seen
    · simp only [dedupFirstAux, if_pos h]
      exact (ih seen).cons a
    · simp only [dedupFirstAux, if_neg h]
      exact (ih (seen ++ [a])).cons₂ a

/-- Elements surviving deduplication were not already seen. -/
theorem not_mem_seen_of_mem_dedupFirstAux :
    ∀ (l seen : List Str) (x : Str), x ∈ dedupFirstAux seen l → x ∉ seen := by
  intro l
  induction l with
  | nil => intro seen x hx; simp [dedupFirstAux] at hx
  | cons a t ih =>
    intro seen x hx
    by_cases h : a ∈ seen
    · simp only [dedupFirstAux, if_pos h] at hx
      exact ih seen x hx
    · simp only [dedupFirstAux, if_neg h] at hx
      rcases List.mem_cons.mp hx with rfl | hx'
      · exact h
      · intro hxseen
        exact (ih (seen ++ [a]) x hx') (List.mem_append_left _ hxseen)

/-- Deduplication produces a list without duplicates. -/
theorem dedupFirstAux_nodup :
    ∀ (l seen : List Str), (dedupFirstAux seen l).Nodup := by
  intro l
  induction l with
  | nil => intro seen; simp [dedupFirstAux]
  | cons a t ih =>
    intro seen
    by_cases h : a ∈ seen
    · simp only [dedupFirstAux, if_pos h]; exact ih seen
    · simp only [dedupFirstAux, if_neg h]
      refine List.nodup_cons.mpr ⟨?_, ih (seen ++ [a])⟩
      intro hmem
      exact (not_mem_seen_of_mem_dedupFirstAux t (seen ++ [a]) a hmem)
        (List.mem_append_right _ (by simp))

/-- Deduplication keeps every element not already seen. -/
theorem mem_dedupFirstAux_of_mem :
    ∀ (l seen : List Str) (x : Str), x ∈ l →
      x ∈ dedupFirstAux seen l ∨ x ∈ seen := by
  intro l
  induction l with
  | nil => intro seen x hx; cases hx
  | cons a t ih =>
    intro seen x hx
    by_cases h : a ∈ seen
    · simp only [dedupFirstAux, if_pos h]
      rcases List.mem_cons.mp hx with rfl | hx'
      · exact Or.inr h
      · exact ih seen x hx'
    · simp only [dedupFirstAux, if_neg h]
      rcases List.mem_cons.mp hx with rfl | hx'
      · exact Or.inl (List.mem_cons_self _ _)
      · rcases ih (seen ++ [a]) x hx' with hin | hin
        · exact Or.inl (List.mem_cons_of_mem _ hin)
        · rcases List.mem_append.mp hin with hs | ha
          · exact Or.inr hs
          · exact Or.inl (by rw [List.mem_singleton.mp ha]; exact List.mem_cons_self _ _)

/-- `dedupFirst` is a sublist of its input. -/
theorem dedupFirst_sublist (l : List Str) : List.Sublist (dedupFirst l) l :=
  dedupFirstAux_sublist l []

/-- `dedupFirst` has no duplicates. -/
theorem dedupFirst_nodup (l : List Str) : (dedupFirst l).Nodup :=
  dedupFirstAux_nodup l []

/-- `dedupFirst` keeps every element of its input. -/
theorem mem_dedupFirst (l : List Str) (x : Str) (hx : x ∈ l) :
    x ∈ dedupFirst l :=
  (mem_dedupFirstAux_of_mem l [] x hx).resolve_right (by simp)

/-- A member that fails the predicate survives `dropWhile`. -/
theorem mem_dropWhile_of_not (p : Char → Bool) :
    ∀ (l : Str) (a : Char), a ∈ l → p a = false → a ∈ l.dropWhile p := by
  intro l
  induction l with
  | nil => intro a ha; cases ha
  | cons x xs ih =>
    intro a ha hpa
    by_cases hx : p x = true
    · rw [List.dropWhile_cons_of_pos hx]
      rcases List.mem_cons.mp ha with rfl | ha'
      · rw [hpa] at hx; cases hx
      · exact ih a ha' hpa
    · rw [List.dropWhile_cons_of_neg hx]
      exact ha

/-- A string containing a non-whitespace character does not trim to
empty. -/
theorem jsTrim_length_pos (s : Str) (a : Char) (ha : a ∈ s)
    (hws : a.isWhitespace = false) : 0 < (jsTrim s).length := by
  have h1 : a ∈ trimLeft s := mem_dropWhile_of_not _ s a ha hws
  have h2 : a ∈ (trimLeft s).reverse := List.mem_reverse.mpr h1
  have h3 : a ∈ (trimLeft s).reverse.dropWhile Char.isWhitespace :=
    mem_dropWhile_of_not _ _ a h2 hws
  have h4 : a ∈ jsTrim s := List.mem_reverse.mpr h3
  exact List.length_pos.mpr (List.ne_nil_of_mem h4)

/-- The first-occurrence index at the head of a list is 0. -/
theorem firstIdx_cons_self (x : Str) (l : List Str) :
    firstIdx x (x :: l) = 0 := by
  simp [firstIdx]

/-- The first-occurrence index steps over a different head. -/
theorem firstIdx_cons_ne (x a : Str) (l : List Str) (h : ¬ a = x) :
    firstIdx x (a :: l) = firstIdx x l + 1 := by
  simp [firstIdx, h]

/-- Deduplication emits its elements in strictly increasing order of their
first occurrence in the input. -/
theorem dedupFirstAux_pairwise :
    ∀ (l seen : List Str),
      (dedupFirstAux seen l).Pairwise
        (fun a b => firstIdx a l < firstIdx b l) := by
  intro l
  induction l with
  | nil => intro seen; simp [dedupFirstAux]
  | cons a t ih =>
    intro seen
    by_cases h : a ∈ seen
    · simp only [dedupFirstAux, if_pos h]
      refine (ih seen).imp_of_mem ?_
      intro x y hx hy hxy
      have hxa : ¬ a = x := fun he =>
        (not_mem_seen_of_mem_dedupFirstAux t seen x hx) (he ▸ h)
      have hya : ¬ a = y := fun he =>
        (not_mem_seen_of_mem_dedupFirstAux t seen y hy) (he ▸ h)
      rw [firstIdx_cons_ne x a t hxa, firstIdx_cons_ne y a t hya]
      omega
    · simp only [dedupFirstAux, if_neg h]
      rw [List.pairwise_cons]
      constructor
      · intro b hb
        have hba : ¬ a = b := fun he =>
          (not_mem_seen_of_mem_dedupFirstAux t (seen ++ [a]) b hb)
            (List.mem_append_right _ (List.mem_singleton.mpr he.symm))
        rw [firstIdx_cons_self, firstIdx_cons_ne b a t hba]
        omega
      · refine (ih (seen ++ [a])).imp_of_mem ?_
        intro x y hx hy hxy
        have hxa : ¬ a = x := fun he =>
          (not_mem_seen_of_mem_dedupFirstAux t (seen ++ [a]) x hx)
            (List.mem_append_right _ (List.mem_singleton.mpr he.symm))
        have hya : ¬ a = y := fun he =>
          (not_mem_seen_of_mem_dedupFirstAux t (seen ++ [a]) y hy)
            (List.mem_append_right _ (List.mem_singleton.mpr he.symm))
        rw [firstIdx_cons_ne x a t hxa, firstIdx_cons_ne y a t hya]
        omega

/-- `dedupFirst` lists its elements in first-occurrence order. -/
theorem dedupFirst_pairwise (l : List Str) :
    (dedupFirst l).Pairwise (fun a b => firstIdx a l < firstIdx b l) :=
  dedupFirstAux_pairwise l []

/-- Claim C7: for every track, the query generator's output is an ordered
(sublist of the raw template list), deduplicated, non-empty list with no
empty or whitespace-only entries; it keeps exactly the raw queries that do
not trim to empty, and lists them in strictly increasing order of their
first occurrence in the raw template list (the `Pairwise` conjunct, which
together with `Nodup`, the sublist property and completeness determines
the output uniquely as the first-occurrence deduplication); the primary
artist it is built from is the first entry of the track's artist list, or
the empty string when that list is empty. -/
theorem generateSearchQueries_spec (t : SpotifyTrack) :
    generateSearchQueries t ≠ [] ∧
    (generateSearchQueries t).Nodup ∧
    List.Sublist (generateSearchQueries t)
      (rawQueries t.name (primaryArtistName t)) ∧
    (∀ q ∈ generateSearchQueries t, 0 < (jsTrim q).length) ∧
    (∀ q ∈ rawQueries t.name (primaryArtistName t),
      0 < (jsTrim q).length → q ∈ generateSearchQueries t) ∧
    (generateSearchQueries t).Pairwise
      (fun a b => firstIdx a (rawQueries t.name (primaryArtistName t)) <
        firstIdx b (rawQueries t.name (primaryArtistName t))) ∧
    (t.artists = [] → primaryArtistName t = []) ∧
    (∀ a rest, t.artists = a :: rest → primaryArtistName t = a.name) := by
  have hcomplete : ∀ q ∈ rawQueries t.name (primaryArtistName t),
      0 < (jsTrim q).length → q ∈ generateSearchQueries t := by
    intro q hq hpos
    exact List.mem_filter.mpr
      ⟨mem_dedupFirst _ q hq, by simpa using hpos⟩
  have hne : generateSearchQueries t ≠ [] := by
    have hf : ('f' : Char) ∈
        primaryArtistName t ++ ' ' :: (cleanTrackName t.name ++ str " official") :=
      List.mem_append_right _
        (List.mem_cons_of_mem _ (List.mem_append_right _ (by decide)))
    have hpos : 0 < (jsTrim (primaryArtistName t ++ ' ' ::
        (cleanTrackName t.name ++ str " official"))).length :=
      jsTrim_length_pos _ 'f' hf (by decide)
    have hq1 : (primaryArtistName t ++ ' ' ::
        (cleanTrackName t.name ++ str " official")) ∈
        rawQueries t.name (primaryArtistName t) :=
      List.mem_cons_self _ _
    exact List.ne_nil_of_mem (hcomplete _ hq1 hpos)
  refine ⟨hne, ?_, ?_, ?_, hcomplete, ?_, ?_, ?_⟩
  · exact (dedupFirst_nodup _).filter _
  · exact (List.filter_sublist _).trans (dedupFirst_sublist _)
  · intro q hq
    have := (List.mem_filter.mp hq).2
    simpa using this
  · exact (dedupFirst_pairwise _).sublist (List.filter_sublist _)
  · intro h; simp [primaryArtistName, h]
  · intro a rest h; simp [primaryArtistName, h]

/-- Witness for C7 at `sampleTrack`. -/
theorem generateSearchQueries_spec_instance :
    generateSearchQueries sampleTrack ≠ [] ∧
    (generateSearchQueries sampleTrack).Nodup ∧
    List.Sublist (generateSearchQueries sampleTrack)
      (rawQueries sampleTrack.name (primaryArtistName sampleTrack)) ∧
    (∀ q ∈ generateSearchQueries sampleTrack, 0 < (jsTrim q).length) ∧
    (∀ q ∈ rawQueries sampleTrack.name (primaryArtistName sampleTrack),
      0 < (jsTrim q).length → q ∈ generateSearchQueries sampleTrack) ∧
    (generateSearchQueries sampleTrack).Pairwise
      (fun a b =>
        firstIdx a (rawQueries sampleTrack.name
          (primaryArtistName sampleTrack)) <
        firstIdx b (rawQueries sampleTrack.name
          (primaryArtistName sampleTrack))) ∧
    (sampleTrack.artists = [] → primaryArtistName sampleTrack = []) ∧
    (∀ a rest, sampleTrack.artists = a :: rest →
      primaryArtistName sampleTrack = a.name) :=
  generateSearchQueries_spec sampleTrack

/-- Effect of recording one track outcome: one result appended, the
processed counter and exactly one of found/not-found bumped, and the batch
cursor either untouched or set to `gIdx + 1`; a checkpoint snapshot, when
written, is the new state and carries `current_batch_start = gIdx + 1`. -/
theorem recordTrackOutcome_spec (tr : SpotifyTrack) (oc : SearchOutcome)
    (now : Str) (gIdx : Nat) (p : SearchProgress) :
    (recordTrackOutcome tr oc now gIdx p).1.tracks.length =
      p.tracks.length + 1 ∧
    (recordTrackOutcome tr oc now gIdx p).1.progress.tracks_processed =
      p.progress.tracks_processed + 1 ∧
    (recordTrackOutcome tr oc now gIdx p).1.progress.tracks_found +
      (recordTrackOutcome tr oc now gIdx p).1.progress.tracks_not_found =
      p.progress.tracks_found + p.progress.tracks_not_found + 1 ∧
    ((recordTrackOutcome tr oc now gIdx p).2 = [] ∨
      ((recordTrackOutcome tr oc now gIdx p).2 =
        [(recordTrackOutcome tr oc now gIdx p).1] ∧
       (recordTrackOutcome tr oc now gIdx p).1.progress.current_batch_start =
        gIdx + 1)) := by
  cases oc with
  | ok vid? =>
    by_cases h5 : (gIdx + 1) % 5 = 0 <;> by_cases hv : vid?.isSome <;>
      simp [recordTrackOutcome, h5, hv] <;> omega
  | err =>
    simp [recordTrackOutcome]
    omega

/-- Loop invariant of `searchTrackBatch`: when the loop starts at the
global index equal to the processed count and the cursor equalities hold,
they keep holding, the processed count advances by the batch length, and
every checkpoint snapshot written during the loop satisfies `checkInv`. -/
theorem runBatchLoop_spec (now : Str) (outcomes : Nat → SearchOutcome) :
    ∀ (batch : List SpotifyTrack) (gIdx : Nat) (p : SearchProgress),
      p.progress.tracks_processed = p.tracks.length →
      p.progress.tracks_found + p.progress.tracks_not_found =
        p.progress.tracks_processed →
      gIdx = p.progress.tracks_processed →
      ((runBatchLoop now outcomes batch gIdx p).1.progress.tracks_processed =
        (runBatchLoop now outcomes batch gIdx p).1.tracks.length) ∧
      ((runBatchLoop now outcomes batch gIdx p).1.progress.tracks_found +
        (runBatchLoop now outcomes batch gIdx p).1.progress.tracks_not_found =
        (runBatchLoop now outcomes batch gIdx p).1.progress.tracks_processed) ∧
      ((runBatchLoop now outcomes batch gIdx p).1.progress.tracks_processed =
        gIdx + batch.length) ∧
      (∀ q ∈ (runBatchLoop now outcomes batch gIdx p).2, checkInv q = true) := by
  intro batch
  induction batch with
  | nil =>
    intro gIdx p hp1 hp2 hg
    refine ⟨hp1, hp2, by simpa using hg.symm, ?_⟩
    intro q hq
    simp [runBatchLoop] at hq
  | cons tr rest ih =>
    intro gIdx p hp1 hp2 hg
    obtain ⟨hr1, hr2, hr3, hr4⟩ :=
      recordTrackOutcome_spec tr (outcomes gIdx) now gIdx p
    have hq1 : (recordTrackOutcome tr (outcomes gIdx) now gIdx p).1.progress.tracks_processed =
        (recordTrackOutcome tr (outcomes gIdx) now gIdx p).1.tracks.length := by
      omega
    have hq2 : (recordTrackOutcome tr (outcomes gIdx) now gIdx p).1.progress.tracks_found +
        (recordTrackOutcome tr (outcomes gIdx) now gIdx p).1.progress.tracks_not_found =
        (recordTrackOutcome tr (outcomes gIdx) now gIdx p).1.progress.tracks_processed := by
      omega
    have hq3 : gIdx + 1 =
        (recordTrackOutcome tr (outcomes gIdx) now gIdx p).1.progress.tracks_processed := by
      omega
    obtain ⟨ih1, ih2, ih3, ih4⟩ :=
      ih (gIdx + 1) (recordTrackOutcome tr (outcomes gIdx) now gIdx p).1 hq1 hq2 hq3
    have hgoal : runBatchLoop now outcomes (tr :: rest) gIdx p =
        ((runBatchLoop now outcomes rest (gIdx + 1)
            (recordTrackOutcome tr (outcomes gIdx) now gIdx p).1).1,
          (recordTrackOutcome tr (outcomes gIdx) now gIdx p).2 ++
          (runBatchLoop now outcomes rest (gIdx + 1)
            (recordTrackOutcome tr (outcomes gIdx) now gIdx p).1).2) := rfl
    rw [hgoal]
    refine ⟨ih1, ih2, by simp at ih3 ⊢; omega, ?_⟩
    intro q hq
    rcases List.mem_append.mp hq with hql | hqr
    · rcases hr4 with hnil | ⟨hsing, hcbs⟩
      · rw [hnil] at hql; cases hql
      · rw [hsing] at hql
        rcases List.mem_singleton.mp hql with rfl
        simp only [checkInv]
        simp only [Bool.and_eq_true, beq_iff_eq]
        omega
    · exact ih4 q hqr

/-- Field equations of the cursor update done at the end of a batch. -/
theorem setCursor_fields (q : SearchProgress) (e : Nat) :
    (setCursor q e).tracks = q.tracks ∧
    (setCursor q e).progress.tracks_processed =
      q.progress.tracks_processed ∧
    (setCursor q e).progress.tracks_found = q.progress.tracks_found ∧
    (setCursor q e).progress.tracks_not_found =
      q.progress.tracks_not_found ∧
    (setCursor q e).progress.current_batch_start = e :=
  ⟨rfl, rfl, rfl, rfl, rfl⟩

/-- One `searchTrackBatch` call preserves the cursor equalities, keeps the
processed count within the track list, and every checkpoint it writes
(including the final one) satisfies `checkInv`. -/
theorem runBatch_spec (allTracks : List SpotifyTrack)
    (outcomes : Nat → SearchOutcome) (now : Str) (batchSize : Nat)
    (p : SearchProgress) (h1 : checkInv p = true)
    (h2 : p.progress.tracks_processed ≤ allTracks.length) :
    checkInv (runBatch allTracks outcomes now batchSize p).1 = true ∧
    (runBatch allTracks outcomes now batchSize p).1.progress.tracks_processed ≤
      allTracks.length ∧
    (∀ q ∈ (runBatch allTracks outcomes now batchSize p).2,
      checkInv q = true) := by
  simp only [checkInv, Bool.and_eq_true, beq_iff_eq] at h1
  obtain ⟨⟨hp1, hp2⟩, hp3⟩ := h1
  obtain ⟨hl1, hl2, hl3, hl4⟩ :=
    runBatchLoop_spec now outcomes
      ((allTracks.drop p.progress.current_batch_start).take
        (min (p.progress.current_batch_start + batchSize) allTracks.length -
          p.progress.current_batch_start))
      p.progress.current_batch_start p hp1 hp2 hp3
  have hblen :
      ((allTracks.drop p.progress.current_batch_start).take
        (min (p.progress.current_batch_start + batchSize) allTracks.length -
          p.progress.current_batch_start)).length =
      min (p.progress.current_batch_start + batchSize) allTracks.length -
        p.progress.current_batch_start := by
    simp only [List.length_take, List.length_drop]
    omega
  rw [hblen] at hl3
  obtain ⟨hc1, hc2, hc3, hc4, hc5⟩ :=
    setCursor_fields
      (runBatchLoop now outcomes
        ((allTracks.drop p.progress.current_batch_start).take
          (min (p.progress.current_batch_start + batchSize) allTracks.length -
            p.progress.current_batch_start))
        p.progress.current_batch_start p).1
      (min (p.progress.current_batch_start + batchSize) allTracks.length)
  have hEnd : checkInv
      (setCursor
        (runBatchLoop now outcomes
          ((allTracks.drop p.progress.current_batch_start).take
            (min (p.progress.current_batch_start + batchSize) allTracks.length -
              p.progress.current_batch_start))
          p.progress.current_batch_start p).1
        (min (p.progress.current_batch_start + batchSize) allTracks.length)) =
      true := by
    simp only [checkInv, Bool.and_eq_true, beq_iff_eq, hc1, hc2, hc3, hc4, hc5]
    omega
  simp only [runBatch]
  refine ⟨hEnd, ?_, ?_⟩
  · rw [hc2]
    omega
  · intro q hq
    rcases List.mem_append.mp hq with hql | hqr
    · exact hl4 q hql
    · rcases List.mem_singleton.mp hqr with rfl
      exact hEnd

/-- Across any sequence of sessions the cursor equalities are preserved
and every checkpoint written satisfies `checkInv`. -/
theorem runSessions_spec (allTracks : List SpotifyTrack) (now : Str) :
    ∀ (sessions : List ((Nat → SearchOutcome) × Nat)) (p : SearchProgress),
      checkInv p = true →
      p.progress.tracks_processed ≤ allTracks.length →
      checkInv (runSessions allTracks now sessions p).1 = true ∧
      (runSessions allTracks now sessions p).1.progress.tracks_processed ≤
        allTracks.length ∧
      (∀ q ∈ (runSessions allTracks now sessions p).2, checkInv q = true) := by
  intro sessions
  induction sessions with
  | nil =>
    intro p h1 h2
    exact ⟨h1, h2, fun q hq => by cases hq⟩
  | cons s rest ih =>
    intro p h1 h2
    obtain ⟨hb1, hb2, hb3⟩ := runBatch_spec allTracks s.1 now s.2 p h1 h2
    obtain ⟨hi1, hi2, hi3⟩ :=
      ih (runBatch allTracks s.1 now s.2 p).1 hb1 hb2
    have hgoal : runSessions allTracks now (s :: rest) p =
        ((runSessions allTracks now rest
            (runBatch allTracks s.1 now s.2 p).1).1,
          (runBatch allTracks s.1 now s.2 p).2 ++
          (runSessions allTracks now rest
            (runBatch allTracks s.1 now s.2 p).1).2) := rfl
    rw [hgoal]
    refine ⟨hi1, hi2, ?_⟩
    intro q hq
    rcases List.mem_append.mp hq with hql | hqr
    · exact hb3 q hql
    · exact hi3 q hqr

/-- Claim C3: starting from a freshly initialized progress record, after
any sequence of recorded track outcomes ending in a checkpoint — i.e. at
every checkpoint written by any sequence of `searchTrackBatch` sessions —
the equalities `tracks_processed = tracks.length`,
`tracks_found + tracks_not_found = tracks_processed` and
`current_batch_start = tracks_processed` all hold (`checkInv`). -/
theorem progress_checkpoint_invariant (allTracks : List SpotifyTrack)
    (now : Str) (sessions : List ((Nat → SearchOutcome) × Nat))
    (pl : PlaylistInfo) (batchSize : Nat) (created : Str) :
    ((runSessions allTracks now sessions
      (freshProgress pl batchSize created)).2).all checkInv = true := by
  have hfresh : checkInv (freshProgress pl batchSize created) = true := by
    simp [checkInv, freshProgress]
  have hle : (freshProgress pl batchSize created).progress.tracks_processed ≤
      allTracks.length := by
    simp [freshProgress]
  obtain ⟨_, _, h3⟩ :=
    runSessions_spec allTracks now sessions
      (freshProgress pl batchSize created) hfresh hle
  exact List.all_eq_true.mpr h3

/-- Any result appended by one recording step carries an empty
`search_queries_tried`. -/
theorem recordTrackOutcome_tracks (tr : SpotifyTrack) (oc : SearchOutcome)
    (now : Str) (gIdx : Nat) (p : SearchProgress) :
    ∀ r ∈ (recordTrackOutcome tr oc now gIdx p).1.tracks,
      r ∈ p.tracks ∨ r.search_queries_tried = [] := by
  cases oc with
  | ok vid? =>
    intro r hr
    by_cases h5 : (gIdx + 1) % 5 = 0 <;> by_cases hv : vid?.isSome <;>
      simp [recordTrackOutcome, h5, hv] at hr <;>
      exact hr.imp (fun h => h) (fun h => by rw [h])
  | err =>
    intro r hr
    simp [recordTrackOutcome] at hr
    exact hr.imp (fun h => h) (fun h => by rw [h])

/-- Across the batch loop, every recorded result either predates the loop
or carries an empty `search_queries_tried`. -/
theorem runBatchLoop_tracks (now : Str) (outcomes : Nat → SearchOutcome) :
    ∀ (batch : List SpotifyTrack) (gIdx : Nat) (p : SearchProgress),
      ∀ r ∈ (runBatchLoop now outcomes batch gIdx p).1.tracks,
        r ∈ p.tracks ∨ r.search_queries_tried = [] := by
  intro batch
  induction batch with
  | nil => intro gIdx p r hr; exact Or.inl hr
  | cons tr rest ih =>
    intro gIdx p r hr
    have hr' : r ∈ (runBatchLoop now outcomes rest (gIdx + 1)
        (recordTrackOutcome tr (outcomes gIdx) now gIdx p).1).1.tracks := hr
    rcases ih (gIdx + 1) (recordTrackOutcome tr (outcomes gIdx) now gIdx p).1
        r hr' with hmem | hempty
    · exact recordTrackOutcome_tracks tr (outcomes gIdx) now gIdx p r hmem
    · exact Or.inr hempty

/-- Claim C8, amended: every `TrackSearchResult` recorded by the batch
script carries `search_queries_tried = []` — the queries actually issued
are never recorded (`searchTrackBatch` always stores the empty list). -/
theorem recorded_queries_always_empty (allTracks : List SpotifyTrack)
    (now : Str) (sessions : List ((Nat → SearchOutcome) × Nat))
    (p : SearchProgress) (r : TrackSearchResult)
    (hr : r ∈ (runSessions allTracks now sessions p).1.tracks) :
    r ∈ p.tracks ∨ r.search_queries_tried = [] := by
  induction sessions generalizing p with
  | nil => exact Or.inl hr
  | cons s rest ih =>
    have hr' : r ∈ (runSessions allTracks now rest
        (runBatch allTracks s.1 now s.2 p).1).1.tracks := hr
    rcases ih (runBatch allTracks s.1 now s.2 p).1 hr' with hmem | hempty
    · have hmem' : r ∈ (runBatchLoop now s.1
          ((allTracks.drop p.progress.current_batch_start).take
            (min (p.progress.current_batch_start + s.2) allTracks.length -
              p.progress.current_batch_start))
          p.progress.current_batch_start p).1.tracks := hmem
      exact runBatchLoop_tracks now s.1 _ _ p r hmem'
    · exact Or.inr hempty

/-- Witness for C8's amended theorem: the result recorded for
`sampleTrack` in a concrete one-session run. -/
theorem recorded_queries_always_empty_instance :
    recordedMiss ∈ (freshProgress samplePlaylist 5 now0).tracks ∨
    recordedMiss.search_queries_tried = [] :=
  recorded_queries_always_empty [sampleTrack] now0 [(outcomeNoneAt, 5)]
    (freshProgress samplePlaylist 5 now0) recordedMiss (by decide)

/-- Claim C8, counterexample: in a concrete run over `sampleTrack` whose
search issues all six generated queries, the recorded MatchResult stores
`search_queries_tried = []`, not the issued query list. -/
theorem queries_attempted_not_recorded :
    ((runBatch [sampleTrack] outcomeNoneAt now0 5
      (freshProgress samplePlaylist 5 now0)).1.tracks.map
        (fun r => r.search_queries_tried)) = [[]] ∧
    queriesIssued sampleTrack noneOracle =
      [str "artist song official", str "artist song official audio",
       str "artist song official video", str "artist song",
       str "song artist", str "\"artist\" \"song\""] ∧
    ((runBatch [sampleTrack] outcomeNoneAt now0 5
      (freshProgress samplePlaylist 5 now0)).1.tracks.map
        (fun r => r.search_queries_tried)) ≠
      [queriesIssued sampleTrack noneOracle] := by
  refine ⟨by decide, by decide, by decide⟩

/-- Bumping one key of the failure-breakdown object increments exactly
that key's recorded count. -/
theorem countOf_bumpCount :
    ∀ (m : List (Str × Nat)) (k k' : Str),
      countOf (bumpCount m k) k' =
        countOf m k' + (if k' = k then 1 else 0) := by
  intro m
  induction m with
  | nil =>
    intro k k'
    by_cases h : k' = k
    · subst h; simp [bumpCount, countOf, List.find?]
    · simp [bumpCount, countOf, List.find?,
        beq_eq_false_iff_ne.mpr (Ne.symm h), h]
  | cons e rest ih =>
    intro k k'
    by_cases h : e.1 = k
    · have hb : bumpCount (e :: rest) k = (e.1, e.2 + 1) :: rest := by
        cases e with
        | mk k0 n0 => simp only at h; simp [bumpCount, h]
      rw [hb]
      by_cases h' : e.1 = k'
      · have hk : k' = k := by rw [← h', h]
        subst hk
        simp [countOf, List.find?, beq_iff_eq.mpr h]
      · have hk : ¬ k' = k := by rw [← h]; exact fun hh => h' hh.symm
        cases e with
        | mk k0 n0 =>
          simp only [countOf, List.find?] at *
          simp [beq_eq_false_iff_ne.mpr h', hk]
    · have hb : bumpCount (e :: rest) k = (e.1, e.2) :: bumpCount rest k := by
        cases e with
        | mk k0 n0 => simp only at h; simp [bumpCount, h]
      rw [hb]
      by_cases h' : e.1 = k'
      · simp [countOf, List.find?, beq_iff_eq.mpr h']
        exact fun hh => h (h'.trans hh)
      · have he : (e.1 == k') = false := beq_eq_false_iff_ne.mpr h'
        simp only [countOf, List.find?, he, cond_false]
        exact ih k k'

/-- The add loop partitions its input: lengths add up, and each input
occurrence lands in exactly one of `added` / `failed`. -/
theorem addVideosGo_count (o : Nat → AddOutcome) :
    ∀ (l : List TrackSearchResult) (i : Nat)
      (added : List TrackSearchResult) (failed : List TrackFailure)
      (bd : List (Str × Nat)) (q : Nat),
      ((addVideosGo o l i added failed bd q).1.length +
        (addVideosGo o l i added failed bd q).2.1.length =
        added.length + failed.length + l.length) ∧
      (∀ m : TrackSearchResult,
        (addVideosGo o l i added failed bd q).1.count m +
        ((addVideosGo o l i added failed bd q).2.1.map
          TrackFailure.track).count m =
        added.count m + (failed.map TrackFailure.track).count m +
          l.count m) := by
  intro l
  induction l with
  | nil =>
    intro i added failed bd q
    exact ⟨by simp [addVideosGo], fun m => by simp [addVideosGo]⟩
  | cons r rest ih =>
    intro i added failed bd q
    cases ho : o i with
    | ok =>
      have hstep : addVideosGo o (r :: rest) i added failed bd q =
          addVideosGo o rest (i + 1) (added ++ [r]) failed bd (q + 50) := by
        simp [addVideosGo, ho]
      rw [hstep]
      obtain ⟨h1, h2⟩ := ih (i + 1) (added ++ [r]) failed bd (q + 50)
      refine ⟨by simp only [List.length_append, List.length_cons,
        List.length_nil] at h1 ⊢; omega, fun m => ?_⟩
      have h2m := h2 m
      by_cases hm : r = m
      · subst hm
        simp only [List.count_append, List.count_cons, List.count_nil,
          beq_self_eq_true, if_true] at h2m ⊢
        omega
      · simp only [List.count_append, List.count_cons, List.count_nil,
          beq_eq_false_iff_ne.mpr hm, if_false] at h2m ⊢
        omega
    | fail et em =>
      have hstep : addVideosGo o (r :: rest) i added failed bd q =
          addVideosGo o rest (i + 1) added
            (failed ++ [{ track := r, error := em, errorType := et }])
            (bumpCount bd et) q := by
        simp [addVideosGo, ho]
      rw [hstep]
      obtain ⟨h1, h2⟩ := ih (i + 1) added
        (failed ++ [{ track := r, error := em, errorType := et }])
        (bumpCount bd et) q
      refine ⟨by simp only [List.length_append, List.length_cons,
        List.length_nil] at h1 ⊢; omega, fun m => ?_⟩
      have h2m := h2 m
      by_cases hm : r = m
      · subst hm
        simp only [List.map_append, List.map_cons, List.map_nil,
          List.count_append, List.count_cons, List.count_nil,
          beq_self_eq_true, if_true] at h2m ⊢
        omega
      · simp only [List.map_append, List.map_cons, List.map_nil,
          List.count_append, List.count_cons, List.count_nil,
          beq_eq_false_iff_ne.mpr hm, if_false] at h2m ⊢
        omega
    | crash msg =>
      have hstep : addVideosGo o (r :: rest) i added failed bd q =
          addVideosGo o rest (i + 1) added
            (failed ++ [{ track := r, error := str "Unexpected error: " ++ msg,
                          errorType := str "UNEXPECTED_ERROR" }])
            (bumpCount bd (str "UNEXPECTED_ERROR")) q := by
        simp [addVideosGo, ho]
      rw [hstep]
      obtain ⟨h1, h2⟩ := ih (i + 1) added
        (failed ++ [{ track := r, error := str "Unexpected error: " ++ msg,
                      errorType := str "UNEXPECTED_ERROR" }])
        (bumpCount bd (str "UNEXPECTED_ERROR")) q
      refine ⟨by simp only [List.length_append, List.length_cons,
        List.length_nil] at h1 ⊢; omega, fun m => ?_⟩
      have h2m := h2 m
      by_cases hm : r = m
      · subst hm
        simp only [List.map_append, List.map_cons, List.map_nil,
          List.count_append, List.count_cons, List.count_nil,
          beq_self_eq_true, if_true] at h2m ⊢
        omega
      · simp only [List.map_append, List.map_cons, List.map_nil,
          List.count_append, List.count_cons, List.count_nil,
          beq_eq_false_iff_ne.mpr hm, if_false] at h2m ⊢
        omega

/-- The add loop keeps the failure-breakdown object in sync with the
per-kind counts of the failed list. -/
theorem addVideosGo_breakdown (o : Nat → AddOutcome) :
    ∀ (l : List TrackSearchResult) (i : Nat)
      (added : List TrackSearchResult) (failed : List TrackFailure)
      (bd : List (Str × Nat)) (q : Nat),
      (∀ k, countOf bd k =
        failed.countP (fun tf => tf.errorType == k)) →
      (∀ k, countOf (addVideosGo o l i added failed bd q).2.2.1 k =
        (addVideosGo o l i added failed bd q).2.1.countP
          (fun tf => tf.errorType == k)) := by
  intro l
  induction l with
  | nil =>
    intro i added failed bd q hbd k
    simpa [addVideosGo] using hbd k
  | cons r rest ih =>
    intro i added failed bd q hbd k
    cases ho : o i with
    | ok =>
      have hstep : addVideosGo o (r :: rest) i added failed bd q =
          addVideosGo o rest (i + 1) (added ++ [r]) failed bd (q + 50) := by
        simp [addVideosGo, ho]
      rw [hstep]
      exact ih (i + 1) (added ++ [r]) failed bd (q + 50) hbd k
    | fail et em =>
      have hstep : addVideosGo o (r :: rest) i added failed bd q =
          addVideosGo o rest (i + 1) added
            (failed ++ [{ track := r, error := em, errorType := et }])
            (bumpCount bd et) q := by
        simp [addVideosGo, ho]
      rw [hstep]
      refine ih (i + 1) added _ _ q (fun k' => ?_) k
      rw [countOf_bumpCount]
      simp only [List.countP_append, List.countP_cons, List.countP_nil, hbd k']
      by_cases hk : et = k'
      · simp [hk]
      · have hk2 : ¬ k' = et := fun hh => hk hh.symm
        simp only [beq_eq_false_iff_ne.mpr hk, cond_false]
        simp [hk2]
    | crash msg =>
      have hstep : addVideosGo o (r :: rest) i added failed bd q =
          addVideosGo o rest (i + 1) added
            (failed ++ [{ track := r, error := str "Unexpected error: " ++ msg,
                          errorType := str "UNEXPECTED_ERROR" }])
            (bumpCount bd (str "UNEXPECTED_ERROR")) q := by
        simp [addVideosGo, ho]
      rw [hstep]
      refine ih (i + 1) added _ _ q (fun k' => ?_) k
      rw [countOf_bumpCount]
      simp only [List.countP_append, List.countP_cons, List.countP_nil, hbd k']
      by_cases hk : str "UNEXPECTED_ERROR" = k'
      · simp [hk]
      · have hk2 : ¬ k' = str "UNEXPECTED_ERROR" := fun hh => hk hh.symm
        simp only [beq_eq_false_iff_ne.mpr hk, cond_false]
        simp [hk2]

/-- Combined specification of a completed `createPlaylistFromResults` run:
the matched tracks are partitioned between `added` and `failed`, the
success rate is the resulting added fraction, and the failure breakdown
records the per-kind counts of the resulting failed list. -/
theorem build_ok_spec (progress : SearchProgress)
    (addOracle : Nat → AddOutcome) (ytPlaylist : YouTubePlaylistRef)
    (now : Str) (r : PlaylistCreationResult)
    (h : createPlaylistFromResults progress addOracle ytPlaylist now = .ok r) :
    (∀ m : TrackSearchResult,
      r.tracks_added.count m +
        (r.tracks_failed.map TrackFailure.track).count m =
      (progress.tracks.filter (fun x => x.youtube_video.isSome)).count m) ∧
    (r.tracks_added.length + r.tracks_failed.length =
      (progress.tracks.filter (fun x => x.youtube_video.isSome)).length) ∧
    (r.creation_stats.success_rate =
      (r.tracks_added.length : Rat) /
        ((r.tracks_added.length : Rat) + (r.tracks_failed.length : Rat))) ∧
    (∀ k, countOf r.creation_stats.failure_breakdown k =
      r.tracks_failed.countP (fun tf => tf.errorType == k)) := by
  by_cases hz :
    (progress.tracks.filter (fun x => x.youtube_video.isSome)).length = 0
  · simp [createPlaylistFromResults, hz] at h
  · simp only [createPlaylistFromResults, if_neg hz] at h
    injection h with h
    subst h
    obtain ⟨hlen, hcount⟩ :=
      addVideosGo_count addOracle
        (progress.tracks.filter (fun x => x.youtube_video.isSome))
        0 [] [] [] 50
    have hbd :=
      addVideosGo_breakdown addOracle
        (progress.tracks.filter (fun x => x.youtube_video.isSome))
        0 [] [] [] 50 (fun k => by simp [countOf, List.find?])
    refine ⟨fun m => by simpa using hcount m, by simpa using hlen, ?_,
      fun k => by simpa using hbd k⟩
    show ((addVideosGo addOracle
        (progress.tracks.filter (fun x => x.youtube_video.isSome))
        0 [] [] [] 50).1.length : Rat) /
        (((progress.tracks.filter (fun x => x.youtube_video.isSome)).length :
          Nat) : Rat) = _
    have hsum :
        (((progress.tracks.filter (fun x => x.youtube_video.isSome)).length :
          Nat) : Rat) =
        ((addVideosGo addOracle
          (progress.tracks.filter (fun x => x.youtube_video.isSome))
          0 [] [] [] 50).1.length : Rat) +
        ((addVideosGo addOracle
          (progress.tracks.filter (fun x => x.youtube_video.isSome))
          0 [] [] [] 50).2.1.length : Rat) := by
      have hn : (progress.tracks.filter (fun x => x.youtube_video.isSome)).length =
          (addVideosGo addOracle
            (progress.tracks.filter (fun x => x.youtube_video.isSome))
            0 [] [] [] 50).1.length +
          (addVideosGo addOracle
            (progress.tracks.filter (fun x => x.youtube_video.isSome))
            0 [] [] [] 50).2.1.length := by
        simp only [List.length_nil] at hlen
        omega
      rw [hn]
      push_cast
      ring
    rw [hsum]

/-- Claim C4: after `build()` (`createPlaylistFromResults`) completes,
every MatchResult of the progress record with a present video appears in
exactly one of `added` / `failed` (occurrence counts add up), and the
recorded `success_rate` equals `|added| / (|added| + |failed|)`. -/
theorem build_partitions_matches (progress : SearchProgress)
    (addOracle : Nat → AddOutcome) (ytPlaylist : YouTubePlaylistRef)
    (now : Str) (r : PlaylistCreationResult)
    (h : createPlaylistFromResults progress addOracle ytPlaylist now = .ok r) :
    (∀ m : TrackSearchResult,
      r.tracks_added.count m +
        (r.tracks_failed.map TrackFailure.track).count m =
      (progress.tracks.filter (fun x => x.youtube_video.isSome)).count m) ∧
    (r.tracks_added.length + r.tracks_failed.length =
      (progress.tracks.filter (fun x => x.youtube_video.isSome)).length) ∧
    r.creation_stats.success_rate =
      (r.tracks_added.length : Rat) /
        ((r.tracks_added.length : Rat) + (r.tracks_failed.length : Rat)) := by
  obtain ⟨h1, h2, h3, _⟩ :=
    build_ok_spec progress addOracle ytPlaylist now r h
  exact ⟨h1, h2, h3⟩

/-- Witness for C4 on a concrete two-track build where one add fails. -/
theorem build_partitions_matches_instance :
    (∀ m : TrackSearchResult,
      builtSample.tracks_added.count m +
        (builtSample.tracks_failed.map TrackFailure.track).count m =
      (sampleProgressTwo.tracks.filter
        (fun x => x.youtube_video.isSome)).count m) ∧
    (builtSample.tracks_added.length + builtSample.tracks_failed.length =
      (sampleProgressTwo.tracks.filter
        (fun x => x.youtube_video.isSome)).length) ∧
    builtSample.creation_stats.success_rate =
      (builtSample.tracks_added.length : Rat) /
        ((builtSample.tracks_added.length : Rat) +
          (builtSample.tracks_failed.length : Rat)) :=
  build_partitions_matches sampleProgressTwo addFailOracle ytRef now0
    builtSample rfl

/-- The retry loop partitions the failed list: `newlyAdded` and
`stillFailed` are sublists of the input in order, and their lengths sum to
the number of entries re-attempted, which is exactly the input length. -/
theorem retryGo_spec (o : Nat → AddOutcome) :
    ∀ (l : List TrackSearchResult) (i : Nat)
      (na sf : List TrackSearchResult) (q : Nat),
      ∃ a b : List TrackSearchResult,
        (retryGo o l i na sf q).1 = na ++ a ∧
        (retryGo o l i na sf q).2.1 = sf ++ b ∧
        List.Sublist a l ∧ List.Sublist b l ∧
        a.length + b.length = l.length := by
  intro l
  induction l with
  | nil =>
    intro i na sf q
    exact ⟨[], [], by simp [retryGo], by simp [retryGo], List.Sublist.refl _,
      List.Sublist.refl _, rfl⟩
  | cons r rest ih =>
    intro i na sf q
    cases ho : o i with
    | ok =>
      obtain ⟨a, b, ha, hb, hsa, hsb, hl⟩ := ih (i + 1) (na ++ [r]) sf (q + 50)
      have hstep : retryGo o (r :: rest) i na sf q =
          retryGo o rest (i + 1) (na ++ [r]) sf (q + 50) := by
        simp [retryGo, ho]
      exact ⟨r :: a, b,
        by rw [hstep, ha, List.append_assoc]; rfl,
        by rw [hstep, hb],
        hsa.cons₂ r, hsb.cons r, by simp at hl ⊢; omega⟩
    | fail et em =>
      obtain ⟨a, b, ha, hb, hsa, hsb, hl⟩ := ih (i + 1) na (sf ++ [r]) q
      have hstep : retryGo o (r :: rest) i na sf q =
          retryGo o rest (i + 1) na (sf ++ [r]) q := by
        simp [retryGo, ho]
      exact ⟨a, r :: b,
        by rw [hstep, ha],
        by rw [hstep, hb, List.append_assoc]; rfl,
        hsa.cons r, hsb.cons₂ r, by simp at hl ⊢; omega⟩
    | crash msg =>
      obtain ⟨a, b, ha, hb, hsa, hsb, hl⟩ := ih (i + 1) na (sf ++ [r]) q
      have hstep : retryGo o (r :: rest) i na sf q =
          retryGo o rest (i + 1) na (sf ++ [r]) q := by
        simp [retryGo, ho]
      exact ⟨a, r :: b,
        by rw [hstep, ha],
        by rw [hstep, hb, List.append_assoc]; rfl,
        hsa.cons r, hsb.cons₂ r, by simp at hl ⊢; omega⟩

/-- Claim C5: `retry` is monotone on the build record: every entry of the
input `added` sequence is present in the output `added` sequence, the
output `failed` sequence is a sublist of the input `failed` sequence (as
is the newly-added sequence), and the number of entries re-attempted —
`|newlyAdded| + |stillFailed|` — equals (hence never exceeds) the size of
the input `failed` sequence. -/
theorem retry_monotone (result : RetryCreationResult)
    (addOracle : Nat → AddOutcome) (now : Str) :
    (∀ x ∈ result.tracks_added,
      x ∈ (updatedResult result
        (retryFailedTracks addOracle result.tracks_failed) now).tracks_added) ∧
    List.Sublist
      (updatedResult result
        (retryFailedTracks addOracle result.tracks_failed) now).tracks_failed
      result.tracks_failed ∧
    List.Sublist (retryFailedTracks addOracle result.tracks_failed).1
      result.tracks_failed ∧
    ((retryFailedTracks addOracle result.tracks_failed).1.length +
      (retryFailedTracks addOracle result.tracks_failed).2.1.length =
      result.tracks_failed.length) := by
  obtain ⟨a, b, ha, hb, hsa, hsb, hl⟩ :=
    retryGo_spec addOracle result.tracks_failed 0 [] [] 0
  have ha' : (retryFailedTracks addOracle result.tracks_failed).1 = a := by
    simpa [retryFailedTracks] using ha
  have hb' : (retryFailedTracks addOracle result.tracks_failed).2.1 = b := by
    simpa [retryFailedTracks] using hb
  refine ⟨?_, ?_, ?_, ?_⟩
  · intro x hx
    show x ∈ result.tracks_added ++
      (retryFailedTracks addOracle result.tracks_failed).1
    exact List.mem_append_left _ hx
  · show List.Sublist (retryFailedTracks addOracle result.tracks_failed).2.1
      result.tracks_failed
    rw [hb']
    exact hsb
  · rw [ha']
    exact hsa
  · rw [ha', hb']
    exact hl

/-- Witness for C5 on a concrete retry where the single failed entry
fails again. -/
theorem retry_monotone_instance :
    (∀ x ∈ prevRetryResult.tracks_added,
      x ∈ (updatedResult prevRetryResult
        (retryFailedTracks allFailOracle prevRetryResult.tracks_failed)
        now0).tracks_added) ∧
    List.Sublist
      (updatedResult prevRetryResult
        (retryFailedTracks allFailOracle prevRetryResult.tracks_failed)
        now0).tracks_failed
      prevRetryResult.tracks_failed ∧
    List.Sublist (retryFailedTracks allFailOracle
        prevRetryResult.tracks_failed).1
      prevRetryResult.tracks_failed ∧
    ((retryFailedTracks allFailOracle prevRetryResult.tracks_failed).1.length +
      (retryFailedTracks allFailOracle
        prevRetryResult.tracks_failed).2.1.length =
      prevRetryResult.tracks_failed.length) :=
  retry_monotone prevRetryResult allFailOracle now0

/-- Claim C9, counterexample: after a concrete `retry()` in which the one
failed entry fails again as `VIDEO_NOT_FOUND`, the resulting failed set
has one entry of that kind but the stored `failure_breakdown` maps
`VIDEO_NOT_FOUND` to 0 — it is reset to the empty object, not recomputed
from the resulting failed set. -/
theorem retry_breakdown_not_recomputed :
    allFailOracle 0 =
      .fail (str "VIDEO_NOT_FOUND")
        (str "Video not found or has been deleted") ∧
    (updatedResult prevRetryResult
      (retryFailedTracks allFailOracle prevRetryResult.tracks_failed)
      now0).tracks_failed.length = 1 ∧
    countOf (updatedResult prevRetryResult
      (retryFailedTracks allFailOracle prevRetryResult.tracks_failed)
      now0).creation_stats.failure_breakdown (str "VIDEO_NOT_FOUND") = 0 := by
  refine ⟨by decide, by decide, by decide⟩

/-- Claim C9, amended: after `build()` the stats are recomputed from the
resulting sets — `failure_breakdown` maps each kind to its count among the
resulting failed entries and `success_rate` is the resulting added
fraction; after `retry()` only `success_rate` is recomputed from the
resulting sets, while `failure_breakdown` is reset to the empty object
regardless of the resulting failed set. -/
theorem stats_recomputation :
    (∀ (progress : SearchProgress) (addOracle : Nat → AddOutcome)
        (ytPlaylist : YouTubePlaylistRef) (now : Str)
        (r : PlaylistCreationResult),
      createPlaylistFromResults progress addOracle ytPlaylist now = .ok r →
      (∀ k, countOf r.creation_stats.failure_breakdown k =
        r.tracks_failed.countP (fun tf => tf.errorType == k)) ∧
      r.creation_stats.success_rate =
        (r.tracks_added.length : Rat) /
          ((r.tracks_added.length : Rat) + (r.tracks_failed.length : Rat))) ∧
    (∀ (result : RetryCreationResult) (addOracle : Nat → AddOutcome)
        (now : Str),
      (updatedResult result (retryFailedTracks addOracle result.tracks_failed)
        now).creation_stats.failure_breakdown = [] ∧
      (updatedResult result (retryFailedTracks addOracle result.tracks_failed)
        now).creation_stats.success_rate =
        ((updatedResult result (retryFailedTracks addOracle
          result.tracks_failed) now).tracks_added.length : Rat) /
          (((updatedResult result (retryFailedTracks addOracle
            result.tracks_failed) now).tracks_added.length : Rat) +
           ((updatedResult result (retryFailedTracks addOracle
            result.tracks_failed) now).tracks_failed.length : Rat))) := by
  constructor
  · intro progress addOracle ytPlaylist now r h
    obtain ⟨_, _, h3, h4⟩ := build_ok_spec progress addOracle ytPlaylist now r h
    exact ⟨h4, h3⟩
  · intro result addOracle now
    obtain ⟨a, b, ha, hb, hsa, hsb, hl⟩ :=
      retryGo_spec addOracle result.tracks_failed 0 [] [] 0
    have ha' : (retryFailedTracks addOracle result.tracks_failed).1 = a := by
      simpa [retryFailedTracks] using ha
    have hb' : (retryFailedTracks addOracle result.tracks_failed).2.1 = b := by
      simpa [retryFailedTracks] using hb
    refine ⟨rfl, ?_⟩
    have h1 : (updatedResult result
        (retryFailedTracks addOracle result.tracks_failed)
        now).tracks_added.length =
        result.tracks_added.length +
        (retryFailedTracks addOracle result.tracks_failed).1.length := by
      show (result.tracks_added ++
        (retryFailedTracks addOracle result.tracks_failed).1).length = _
      simp
    have h2 : (updatedResult result
        (retryFailedTracks addOracle result.tracks_failed)
        now).tracks_failed.length =
        (retryFailedTracks addOracle result.tracks_failed).2.1.length := rfl
    have h3 : result.tracks_failed.length =
        (retryFailedTracks addOracle result.tracks_failed).1.length +
        (retryFailedTracks addOracle result.tracks_failed).2.1.length := by
      rw [ha', hb']
      omega
    show ((result.tracks_added.length +
        (retryFailedTracks addOracle result.tracks_failed).1.length : Nat) :
          Rat) /
        ((result.tracks_added.length + result.tracks_failed.length : Nat) :
          Rat) = _
    rw [h1, h2, h3]
    push_cast
    ring

/-- Witness for C9's amended theorem: the concrete build with one failed
add, and the concrete retry with one still-failing entry. -/
theorem stats_recomputation_instance :
    ((∀ k, countOf builtSample.creation_stats.failure_breakdown k =
        builtSample.tracks_failed.countP (fun tf => tf.errorType == k)) ∧
      builtSample.creation_stats.success_rate =
        (builtSample.tracks_added.length : Rat) /
          ((builtSample.tracks_added.length : Rat) +
            (builtSample.tracks_failed.length : Rat))) ∧
    ((updatedResult prevRetryResult
        (retryFailedTracks allFailOracle prevRetryResult.tracks_failed)
        now0).creation_stats.failure_breakdown = [] ∧
      (updatedResult prevRetryResult
        (retryFailedTracks allFailOracle prevRetryResult.tracks_failed)
        now0).creation_stats.success_rate =
        ((updatedResult prevRetryResult (retryFailedTracks allFailOracle
          prevRetryResult.tracks_failed) now0).tracks_added.length : Rat) /
          (((updatedResult prevRetryResult (retryFailedTracks allFailOracle
            prevRetryResult.tracks_failed) now0).tracks_added.length : Rat) +
           ((updatedResult prevRetryResult (retryFailedTracks allFailOracle
            prevRetryResult.tracks_failed) now0).tracks_failed.length :
              Rat))) :=
  ⟨stats_recomputation.1 sampleProgressTwo addFailOracle ytRef now0
      builtSample rfl,
    stats_recomputation.2 prevRetryResult allFailOracle now0⟩
